import Mathlib

/-!
# Bookmarks plugin: the bookmark collection and its persistence

A shallow embedding of `server/kv_bookmarks.go` (the `Bookmarks` aggregate, the
`Bookmark` entity helpers and `storeBookmarks`) and of `executeCommandView` of
`server/command_view.go`, together with the collaborators the code calls: the
key-value store behind `plugin.API`, the millisecond clock `model.GetMillis`,
the `encoding/json` codec driven by the struct tags, `strings.Fields` and
`fmt.Sprintf`.

Modelling conventions.

* A Go `*Bookmark` is an `Option Bookmark`; `none` is the nil pointer.  In
  `Bookmarks` every map entry owns the bookmark it points to, so a write through
  a pointer obtained from `get` is written back under the key it was looked up
  with.  Where two keys may hold the same pointer, `BookmarksRef` keeps addresses
  and a heap; the two agree on collections in which no pointer is shared.
* `map[string]*Bookmark` is a finite map with unique keys (`AList`).  The nil map
  reads as the empty map and is modelled by it; an assignment into a nil map,
  which panics, is outside the model.
* `int64` timestamps are `Int`; the code performs no arithmetic on them, and the
  bounds of `int64` are not checked.
* A `[]string` is `Option (List String)`: `none` is the nil slice, `some []` a
  slice that is present and has no elements.
* A Go `error` is a value of `Error`; `Option Error` with `none` for `nil`.
* The `api` field of `Bookmarks` is a handle on process-wide state; the state of
  the store is passed explicitly as an `API` value.
* A run-time panic (nil dereference) is `Except.error`.
-/

set_option linter.dupNamespace false

namespace BookmarksPlugin

/-! ## Errors -/

/-- Go error values: a leaf error carrying its message, or an error wrapped
with a note by `errors.Wrap`. -/
inductive Error where
  | msg (text : String)
  | wrap (cause : Error) (note : String)
deriving DecidableEq, Repr

/-- The `Error()` method: `errors.Wrap(err, note)` prints as the note, a colon
and a blank, then the message of the cause. -/
def Error.Error : Error → String
  | .msg text => text
  | .wrap cause note => note ++ ": " ++ cause.Error

/-- Run-time panics of the Go code. -/
inductive Panic where
  | nilDereference
deriving DecidableEq, Repr

/-! ## JSON documents -/

/-- JSON values, the documents handed to and returned by the store.  The fields
of an object are kept in the order in which they are written. -/
inductive Json where
  | null
  | bool (b : Bool)
  | num (n : Int)
  | str (s : String)
  | arr (items : List Json)
  | obj (fields : List (String × Json))

/-! ## The bookmark entity -/

/-- Bookmark contains information about an individual bookmark. -/
structure Bookmark where
  PostID : String
  Title : String := ""
  CreateAt : Int := 0
  ModifiedAt : Int := 0
  LabelIDs : Option (List String) := none
deriving DecidableEq, Repr

namespace Bookmark

def getTitle (b : Bookmark) : String :=
  b.Title

def setTitle (b : Bookmark) (title : String) : Bookmark :=
  { b with Title := title }

def getLabelIDs (b : Bookmark) : Option (List String) :=
  b.LabelIDs

def addLabelIDs (b : Bookmark) (ids : Option (List String)) : Bookmark :=
  { b with LabelIDs := ids }

/-- The receiver is not used by the Go method; the test is on the argument. -/
def hasUserTitle (_b : Option Bookmark) (bmark : Bookmark) : Bool :=
  bmark.getTitle != ""

/-- The receiver is not used by the Go method; the slice is compared with nil. -/
def hasLabels (_b : Option Bookmark) (bmark : Bookmark) : Bool :=
  bmark.getLabelIDs != none

end Bookmark

/-! ## The key-value store and the clock -/

/-- State of the key-value store reached through `plugin.API`.

`kv` holds the document persisted under each key.  `setErr n key value` is the
error the `n`-th call of `KVSet` answers with (`none`: the write goes through),
`getErr n key` the same for `KVGet`.  `sets` and `gets` record the calls made so
far, oldest first. -/
structure API where
  kv : String → Option Json
  setErr : Nat → String → Json → Option Error
  getErr : Nat → String → Option Error
  sets : List (String × Json)
  gets : List String

namespace API

/-- `KVSet` is one atomic call: it either replaces the document under `key` or
fails and leaves the store as it was. -/
def KVSet (api : API) (key : String) (value : Json) : Option Error × API :=
  match api.setErr api.sets.length key value with
  | some appErr => (some appErr, { api with sets := api.sets ++ [(key, value)] })
  | none =>
    (none, { api with
      kv := fun k => if k = key then some value else api.kv k
      sets := api.sets ++ [(key, value)] })

/-- `KVGet` answers with the document under `key`, `none` when there is none. -/
def KVGet (api : API) (key : String) : Except Error (Option Json) × API :=
  match api.getErr api.gets.length key with
  | some appErr => (.error appErr, { api with gets := api.gets ++ [key] })
  | none => (.ok (api.kv key), { api with gets := api.gets ++ [key] })

end API

/-- The millisecond clock: the readings that successive calls of
`model.GetMillis` are going to return. -/
abbrev Clock := Nat → Int

/-- One call of `model.GetMillis`: the next reading, and the clock after it. -/
def GetMillis (clk : Clock) : Int × Clock :=
  (clk 0, fun n => clk (n + 1))

/-! ## The collection -/

/-- The type `map[string]*Bookmark`. -/
abbrev ByIDMap := AList (fun _ : String => Option Bookmark)

/-- Bookmarks contains a map of bookmarks. -/
structure Bookmarks where
  ByID : ByIDMap
  userID : String

/-- The `json.Marshal` call of `storeBookmarks`, as a function of the collection. -/
abbrev Marshal := Bookmarks → Except Error Json

/-- Modelled from the spec: `getBookmarksKey` is not part of the sources at hand;
the key is the fixed prefix `bookmarks_` followed by the user identity, as the
test of `storeBookmarks` expects for `userID1`. -/
def getBookmarksKey (userID : String) : String :=
  "bookmarks_" ++ userID

/-- NewBookmarksWithUser returns an initialized collection for a user. -/
def NewBookmarksWithUser (userID : String) : Bookmarks :=
  { ByID := ∅, userID := userID }

namespace Bookmarks

/-- The statement `b.ByID[key] = ptr`. -/
def setEntry (b : Bookmarks) (key : String) (ptr : Option Bookmark) : Bookmarks :=
  { b with ByID := b.ByID.insert key ptr }

/-- storeBookmarks stores all the users bookmarks. -/
def storeBookmarks (marshal : Marshal) (b : Bookmarks) (api : API) : Option Error × API :=
  match marshal b with
  | .error jsonErr => (some jsonErr, api)
  | .ok jsonBookmarks =>
    let key := getBookmarksKey b.userID
    match api.KVSet key jsonBookmarks with
    | (some appErr, api') => (some appErr, api')
    | (none, api') => (none, api')

def add (marshal : Marshal) (b : Bookmarks) (api : API) (bmark : Bookmark) :
    Option Error × Bookmarks × API :=
  let b := b.setEntry bmark.PostID (some bmark)
  match b.storeBookmarks marshal api with
  | (some err, api') => (some (Error.wrap err "failed to add bookmark"), b, api')
  | (none, api') => (none, b, api')

/-- The Go index expression yields the nil pointer for a key that is not there. -/
def get (b : Bookmarks) (bmarkID : String) : Option Bookmark :=
  (b.ByID.lookup bmarkID).join

def delete (b : Bookmarks) (bmarkID : String) : Bookmarks :=
  { b with ByID := b.ByID.erase bmarkID }

def «exists» (b : Bookmarks) (bmarkID : String) : Option Bookmark × Bool :=
  match b.ByID.lookup bmarkID with
  | some bmark => (bmark, true)
  | none => (none, false)

/-- The result is the bookmark pointed to after the call, the collection (the
map entry sees the writes made through the pointer) and the clock after the
readings taken. -/
def updateTimes (b : Bookmarks) (clk : Clock) (bmarkID : String) :
    Except Panic (Bookmark × Bookmarks × Clock) :=
  match b.get bmarkID with
  | none => .error .nilDereference
  | some bmark =>
    let (bmark, clk) :=
      if bmark.CreateAt = 0 then
        let (now, clk) := GetMillis clk
        let bmark := { bmark with CreateAt := now }
        let bmark := { bmark with ModifiedAt := bmark.CreateAt }
        (bmark, clk)
      else
        (bmark, clk)
    let (now, clk) := GetMillis clk
    let bmark := { bmark with ModifiedAt := now }
    .ok (bmark, b.setEntry bmarkID (some bmark), clk)

/-- The result is the incoming bookmark and the collection after the write
through the pointer to the stored bookmark. -/
def updateLabels (b : Bookmarks) (bmark : Bookmark) : Except Panic (Bookmark × Bookmarks) :=
  match b.get bmark.PostID with
  | none => .error .nilDereference
  | some bmarkOrig =>
    let bmarkOrig := bmarkOrig.addLabelIDs bmark.getLabelIDs
    .ok (bmark, b.setEntry bmark.PostID (some bmarkOrig))

end Bookmarks

/-! ## Pointers

`Bookmarks` holds each bookmark by value, which is what the code does as long as
no two keys of the map hold the same `*Bookmark`.  `BookmarksRef` keeps the
pointers: the map holds addresses and a heap holds the bookmark at each address,
so that a write through a pointer is seen under every key that holds it. -/

/-- The bookmarks in memory, by address. -/
abbrev Heap := Nat → Bookmark

/-- A collection whose map holds pointers; `none` is the nil pointer. -/
structure BookmarksRef where
  ByID : AList (fun _ : String => Option Nat)
  userID : String

namespace BookmarksRef

def get (b : BookmarksRef) (bmarkID : String) : Option Nat :=
  (b.ByID.lookup bmarkID).join

/-- What the entry under `key` shows: the bookmark at the address the map holds. -/
def entry (b : BookmarksRef) (heap : Heap) (key : String) : Option (Option Bookmark) :=
  (b.ByID.lookup key).map (Option.map heap)

/-- The result is the pointer returned, the heap after the writes through the
pointer looked up, and the clock after the readings taken. -/
def updateTimes (b : BookmarksRef) (heap : Heap) (clk : Clock) (bmarkID : String) :
    Except Panic (Nat × Heap × Clock) :=
  match b.get bmarkID with
  | none => .error .nilDereference
  | some bmark =>
    let (heap, clk) :=
      if (heap bmark).CreateAt = 0 then
        let (now, clk) := GetMillis clk
        let heap := Function.update heap bmark { heap bmark with CreateAt := now }
        let heap := Function.update heap bmark
          { heap bmark with ModifiedAt := (heap bmark).CreateAt }
        (heap, clk)
      else
        (heap, clk)
    let (now, clk) := GetMillis clk
    let heap := Function.update heap bmark { heap bmark with ModifiedAt := now }
    .ok (bmark, heap, clk)

/-- The incoming `bmark` is a pointer that is not nil.  The result is the pointer
returned, the heap after the write through the pointer looked up, and the store,
to which the code makes no call. -/
def updateLabels (b : BookmarksRef) (heap : Heap) (api : API) (bmark : Nat) :
    Except Panic (Nat × Heap × API) :=
  match b.get (heap bmark).PostID with
  | none => .error .nilDereference
  | some bmarkOrig =>
    let heap := Function.update heap bmarkOrig
      ((heap bmarkOrig).addLabelIDs (heap bmark).getLabelIDs)
    .ok (bmark, heap, api)

end BookmarksRef

/-! ## The document encoding

`json.Marshal` of a `Bookmarks` value writes the exported field `ByID` only (`api`
and `userID` are unexported).  A map is written as an object whose keys are
sorted; a `Bookmark` is written field by field under the names of its struct
tags, `title` and `label_ids` being left out when empty (`omitempty`); a nil
pointer is written as `null`. -/

/-- Strict order on the code points of two keys, the order `json.Marshal` sorts
map keys by. -/
def codesLess : List Nat → List Nat → Bool
  | _, [] => false
  | [], _ :: _ => true
  | x :: xs, y :: ys => decide (x < y) || (decide (x = y) && codesLess xs ys)

def keyLE (a b : String) : Prop :=
  codesLess (b.data.map Char.toNat) (a.data.map Char.toNat) = false

instance : DecidableRel keyLE :=
  fun a b =>
    inferInstanceAs (Decidable (codesLess (b.data.map Char.toNat) (a.data.map Char.toNat) = false))

def encodeLabelIDs : Option (List String) → List (String × Json)
  | some (id :: ids) => [("label_ids", .arr ((id :: ids).map .str))]
  | _ => []

def encodeBookmark (b : Bookmark) : Json :=
  .obj ([("postid", .str b.PostID)]
    ++ (if b.Title = "" then [] else [("title", .str b.Title)])
    ++ [("create_at", .num b.CreateAt), ("update_at", .num b.ModifiedAt)]
    ++ encodeLabelIDs b.LabelIDs)

def encodePtr : Option Bookmark → Json
  | none => .null
  | some b => encodeBookmark b

def encodeEntry (e : (_ : String) × Option Bookmark) : String × Json :=
  (e.1, encodePtr e.2)

/-- The entries of a map in the order of their keys. -/
def sortedEntries (m : ByIDMap) : List ((_ : String) × Option Bookmark) :=
  m.entries.insertionSort (fun e₁ e₂ => keyLE e₁.1 e₂.1)

def encodeByID (m : ByIDMap) : Json :=
  .obj ((sortedEntries m).map encodeEntry)

/-- The document `json.Marshal` produces for a collection. -/
def encode (b : Bookmarks) : Json :=
  .obj [("ByID", encodeByID b.ByID)]

/-- `json.Marshal` on a `Bookmarks` value: there is no value of this type the
encoder rejects. -/
def jsonMarshal : Marshal :=
  fun b => .ok (encode b)

/-! `json.Unmarshal` into a `Bookmarks` value.  Fields are taken in the order of
the document, a later occurrence of a key replacing an earlier one; a key names
a field without regard to the case of its letters; keys that name no field are
skipped; `null` leaves a string or number as it is and makes a slice, pointer or
map nil; a value of the wrong kind is an error.  Numbers are the integers of the
model: the bounds of `int64` are not checked. -/

def typeError (what : String) : Error :=
  .msg ("json: cannot unmarshal value into Go value of type " ++ what)

/-- The folding under which `encoding/json` compares a key with a field name:
capital letters count as small ones, the long s as `s` and the Kelvin sign as
`k`. -/
def foldChar (c : Char) : Char :=
  if 'A' ≤ c ∧ c ≤ 'Z' then Char.ofNat (c.toNat + 32)
  else if c = Char.ofNat 0x17F then 's'
  else if c = Char.ofNat 0x212A then 'k'
  else c

def foldKey (key : String) : String :=
  String.mk (key.data.map foldChar)

def decodeStrings : List Json → Except Error (List String)
  | [] => .ok []
  | .str s :: rest => (decodeStrings rest).map (s :: ·)
  | .null :: rest => (decodeStrings rest).map ("" :: ·)
  | _ :: _ => .error (typeError "string")

def decodeField (b : Bookmark) (kv : String × Json) : Except Error Bookmark :=
  match foldKey kv.1, kv.2 with
  | "postid", .str s => .ok { b with PostID := s }
  | "postid", .null => .ok b
  | "postid", _ => .error (typeError "string")
  | "title", .str s => .ok { b with Title := s }
  | "title", .null => .ok b
  | "title", _ => .error (typeError "string")
  | "create_at", .num n => .ok { b with CreateAt := n }
  | "create_at", .null => .ok b
  | "create_at", _ => .error (typeError "int64")
  | "update_at", .num n => .ok { b with ModifiedAt := n }
  | "update_at", .null => .ok b
  | "update_at", _ => .error (typeError "int64")
  | "label_ids", .arr items => (decodeStrings items).map fun ids => { b with LabelIDs := some ids }
  | "label_ids", .null => .ok { b with LabelIDs := none }
  | "label_ids", _ => .error (typeError "[]string")
  | _, _ => .ok b

def decodeBookmark (fields : List (String × Json)) : Except Error Bookmark :=
  fields.foldlM decodeField { PostID := "" }

def decodePtr : Json → Except Error (Option Bookmark)
  | .null => .ok none
  | .obj fields => (decodeBookmark fields).map some
  | _ => .error (typeError "main.Bookmark")

def decodeEntry (m : ByIDMap) (kv : String × Json) : Except Error ByIDMap :=
  (decodePtr kv.2).map fun ptr => m.insert kv.1 ptr

def decodeTop (b : Bookmarks) (kv : String × Json) : Except Error Bookmarks :=
  match foldKey kv.1, kv.2 with
  | "byid", .obj entries =>
    (entries.foldlM decodeEntry b.ByID).map fun m => { b with ByID := m }
  | "byid", .null => .ok { b with ByID := ∅ }
  | "byid", _ => .error (typeError "map[string]*main.Bookmark")
  | _, _ => .ok b

/-- `json.Unmarshal(data, b)`: the collection `b` after decoding `data` into it. -/
def jsonUnmarshal (data : Json) (b : Bookmarks) : Except Error Bookmarks :=
  match data with
  | .null => .ok b
  | .obj fields => fields.foldlM decodeTop b
  | _ => .error (typeError "main.Bookmarks")

/-- The value of the field `name` of a JSON object, when it has one. -/
def Json.field (j : Json) (name : String) : Option Json :=
  match j with
  | .obj fields => fields.lookup name
  | _ => none

/-- The bookmark as it is read back from its encoding: a label sequence that is
present and has no elements is not written, and so comes back nil. -/
def Bookmark.readBack (b : Bookmark) : Bookmark :=
  match b.LabelIDs with
  | some [] => { b with LabelIDs := none }
  | _ => b

/-! ## Operations that reload from the store -/

/-- The collection persisted for a user: what decoding the document under the
user's key gives, the empty collection when there is no document. -/
def persisted (api : API) (userID : String) : Except Error Bookmarks :=
  match api.kv (getBookmarksKey userID) with
  | none => .ok (NewBookmarksWithUser userID)
  | some data => jsonUnmarshal data (NewBookmarksWithUser userID)

/-- Modelled from the spec: `load`, the reading half of the persistence gateway,
is not part of the sources at hand.  It reads the document at the key of the
user; when there is none the result is an empty collection, not an error; a
document that cannot be decoded is a serialization error; a failure of the store
is passed on. -/
def load (userID : String) (api : API) : Except Error Bookmarks × API :=
  match api.KVGet (getBookmarksKey userID) with
  | (.error appErr, api') => (.error appErr, api')
  | (.ok none, api') => (.ok (NewBookmarksWithUser userID), api')
  | (.ok (some data), api') => (jsonUnmarshal data (NewBookmarksWithUser userID), api')

namespace Bookmarks

/-- The Go expression `len(b.ByID)`. -/
def len (b : Bookmarks) : Nat :=
  b.ByID.entries.length

/-- Modelled from the spec: `addBookmark` is not part of the sources at hand.  It
reloads the latest collection from the store, inserts or overwrites the entry,
and persists; the receiver then holds the reloaded collection with the entry. -/
def addBookmark (b : Bookmarks) (api : API) (bmark : Bookmark) :
    Option Error × Bookmarks × API :=
  match load b.userID api with
  | (.error err, api') => (some err, b, api')
  | (.ok bmarks, api') => bmarks.add jsonMarshal api' bmark

/-- Modelled from the spec: `deleteBookmark` is not part of the sources at hand.
It reloads the latest collection from the store and checks existence; when the
id is absent it fails with the not-found message; when present it removes the
entry, persists the updated collection and returns the removed bookmark. -/
def deleteBookmark (b : Bookmarks) (api : API) (bmarkID : String) :
    Except Error (Option Bookmark) × Bookmarks × API :=
  match load b.userID api with
  | (.error err, api') => (.error err, b, api')
  | (.ok bmarks, api') =>
    match bmarks.exists bmarkID with
    | (_, false) => (.error (.msg ("Bookmark `" ++ bmarkID ++ "` does not exist")), bmarks, api')
    | (bmark, true) =>
      let bmarks := bmarks.delete bmarkID
      match bmarks.storeBookmarks jsonMarshal api' with
      | (some err, api'') => (.error err, bmarks, api'')
      | (none, api'') => (.ok bmark, bmarks, api'')

end Bookmarks

/-! ## The view command

`executeCommandView` of `server/command_view.go`.  The collaborators it calls are
fields of `Plugin`; the calls made are recorded, in order, beside the text of
the response. -/

/-- The arguments of a slash command that the handler reads. -/
structure CommandArgs where
  Command : String
  UserId : String

/-- The Go function `unicode.IsSpace`. -/
def isSpace (c : Char) : Bool :=
  let n := c.toNat
  (decide (0x09 ≤ n) && decide (n ≤ 0x0D)) || n == 0x20 || n == 0x85 || n == 0xA0 ||
    n == 0x1680 || (decide (0x2000 ≤ n) && decide (n ≤ 0x200A)) || n == 0x2028 ||
    n == 0x2029 || n == 0x202F || n == 0x205F || n == 0x3000

/-- The words of `cs`, after the word `word` read so far (last character first). -/
def fieldsFrom : List Char → List Char → List String
  | [], [] => []
  | [], w :: word => [String.mk (w :: word).reverse]
  | c :: cs, word =>
    if isSpace c then
      match word with
      | [] => fieldsFrom cs []
      | w :: word => String.mk (w :: word).reverse :: fieldsFrom cs []
    else fieldsFrom cs (c :: word)

/-- The Go function `strings.Fields`: the maximal runs of characters that are
not white space. -/
def Fields (s : String) : List String :=
  fieldsFrom s.data []

/-! `fmt.Sprintf(format)`, a call without operands, as `doPrintf` of package `fmt`
runs it: text is copied up to a per-cent sign; after it come flags, an argument
index in brackets, a width, a precision and the verb.  With no operand to
print, `%%` writes a per-cent sign, a `*` width or precision is reported as bad,
a verb after an argument index as a bad index, any other verb as missing its
operand, and a format that ends before the verb as having no verb. -/

/-- The flags of a directive. -/
def isFlag (c : Char) : Bool :=
  c = '#' || c = '0' || c = '+' || c = '-' || c = ' '

/-- The function `parsenum` of package `fmt`: the run of digits at the head of
the characters; `num` is the number read so far and `isnum` whether a digit was
read.  The result is whether a number was read and the characters after it; a
number past 1000000 is no number and moves to the end of the characters. -/
def parsenum : List Char → Nat → Bool → Bool × List Char
  | [], _, isnum => (isnum, [])
  | c :: cs, num, isnum =>
    if c.isDigit then
      if 1000000 < num then (false, [])
      else parsenum cs (num * 10 + (c.toNat - 48)) true
    else (isnum, c :: cs)

/-- The characters before the first closing bracket and those after it. -/
def splitBracket : List Char → Option (List Char × List Char)
  | [] => none
  | c :: cs =>
    if c = ']' then some ([], cs)
    else (splitBracket cs).map fun r => (c :: r.1, r.2)

/-- The function `argNumber` of package `fmt` when there is no operand: at an
opening bracket, the characters after the argument index (after the bracket
alone when no index can be read), whether an index was read, and that the
argument number is bad; elsewhere the characters as they are. -/
def argNumber (cs : List Char) : List Char × Bool × Bool :=
  match cs with
  | [] => ([], false, false)
  | c :: rest =>
    if c = '[' then
      if rest.length < 2 then (rest, false, true)
      else
        match splitBracket rest with
        | none => (rest, false, true)
        | some (inside, after) =>
          ((after, (parsenum inside 0 false).1 && (parsenum inside 0 false).2.isEmpty, true))
    else (c :: rest, false, false)

/-- The width of a directive: what is written, the characters left, whether an
argument index still stands before the verb, and whether the argument number
became bad. -/
def parseWidth (cs : List Char) (afterIndex : Bool) : List Char × List Char × Bool × Bool :=
  match cs with
  | [] => ([], [], afterIndex, false)
  | c :: rest =>
    if c = '*' then ("%!(BADWIDTH)".data, rest, false, false)
    else ([], (parsenum (c :: rest) 0 false).2, afterIndex,
      afterIndex && (parsenum (c :: rest) 0 false).1)

/-- The precision of a directive, with the same results as `parseWidth`. -/
def parsePrecision (cs : List Char) (afterIndex : Bool) : List Char × List Char × Bool × Bool :=
  match cs with
  | [] => ([], [], afterIndex, false)
  | c :: rest =>
    if c = '.' then
      match (argNumber rest).1 with
      | [] => ([], [], (argNumber rest).2.1, afterIndex || (argNumber rest).2.2)
      | d :: rest' =>
        if d = '*' then ("%!(BADPREC)".data, rest', false, afterIndex || (argNumber rest).2.2)
        else ([], (parsenum (d :: rest') 0 false).2, (argNumber rest).2.1,
          afterIndex || (argNumber rest).2.2)
    else ([], c :: rest, afterIndex, false)

/-- What stands before the verb of a directive when there is no operand: flags,
an argument index, a width, a precision and again an argument index.  `cs` are
the characters after the per-cent sign; the result is the text written, the
characters from the verb on, and whether the argument number is bad. -/
def beforeVerb (cs : List Char) : List Char × List Char × Bool :=
  let index := argNumber (cs.dropWhile isFlag)
  let width := parseWidth index.1 index.2.1
  let prec := parsePrecision width.2.1 width.2.2.1
  let last := if prec.2.2.1 then (prec.2.1, false, false) else argNumber prec.2.1
  (width.1 ++ prec.1, last.1, index.2.2 || width.2.2.2 || prec.2.2.2 || last.2.2)

/-- One directive of a format when there is no operand.  `cs` are the characters
after the per-cent sign; the result is the text written and the characters after
the verb, or `none` when the format ends before a verb. -/
def directive (cs : List Char) : List Char × Option (List Char) :=
  match beforeVerb cs with
  | (out, [], _) => (out ++ "%!(NOVERB)".data, none)
  | (out, verb :: rest, bad) =>
    if verb = '%' then (out ++ ['%'], some rest)
    else if bad then (out ++ "%!".data ++ [verb] ++ "(BADINDEX)".data, some rest)
    else (out ++ "%!".data ++ [verb] ++ "(MISSING)".data, some rest)

/-- The characters `fmt.Sprintf(format)` writes; `skip` counts the characters at
the head that the directive before them has taken. -/
def doPrintf : List Char → Nat → List Char
  | [], _ => []
  | _ :: cs, skip + 1 => doPrintf cs skip
  | c :: cs, 0 =>
    if c = '%' then
      match directive cs with
      | (out, none) => out
      | (out, some rest) => out ++ doPrintf cs (cs.length - rest.length)
    else c :: doPrintf cs 0

/-- The Go call `fmt.Sprintf(format)`, without operands. -/
def Sprintf (format : String) : String :=
  String.mk (doPrintf format.data 0)

/-- The collaborators of the handler.  `getBookmarks userId` stands for
`NewBookmarksWithUser(p.API, userId).getBookmarks()`, whose collection may be
nil. -/
structure Plugin where
  getBookmarks : String → Except Error (Option Bookmarks)
  getPostIDFromLink : String → String
  getBookmark : Bookmarks → String → Except Error (Option Bookmark)
  getBmarkLabelNames : Bookmarks → Option Bookmark → Except Error (List String)
  getBmarkTextDetailed : Option Bookmark → List String → CommandArgs → Except Error String
  getBmarksEphemeralText : String → String × Option Error

/-- A call of a collaborator. -/
inductive Call where
  | getBookmarks (userId : String)
  | getPostIDFromLink (link : String)
  | getBookmark (postID : String)
  | getBmarkLabelNames
  | getBmarkTextDetailed
  | getBmarksEphemeralText (userId : String)
deriving DecidableEq, Repr

namespace Plugin

/-- The text that `p.responsef(args, format)`, a call without operands, posts:
`fmt.Sprintf(format)`. -/
def responsef (_p : Plugin) (_args : CommandArgs) (format : String) : String :=
  Sprintf format

/-- The text that `p.responsef(args, text + "%s", operand)` posts, for a literal
`text` without per-cent sign and an operand that is a string or an error:
`fmt.Sprintf` copies the text and, for the verb `%s`, writes the operand (of an
error, its message) as it is. -/
def responsefOperand (_p : Plugin) (_args : CommandArgs) (text operand : String) : String :=
  text ++ operand

/-- executeCommandView shows all bookmarks in an ephemeral post. -/
def executeCommandView (p : Plugin) (args : CommandArgs) : String × List Call :=
  let subCommand := Fields args.Command
  match p.getBookmarks args.UserId with
  | .error _ =>
    (p.responsefOperand args "Unable to retrieve bookmarks for user " args.UserId,
      [.getBookmarks args.UserId])
  | .ok bmarks =>
    match bmarks with
    | none => (p.responsef args "You do not have any saved bookmarks", [.getBookmarks args.UserId])
    | some bmarks =>
      if bmarks.len = 0 then
        (p.responsef args "You do not have any saved bookmarks", [.getBookmarks args.UserId])
      else if subCommand.length = 3 then
        let link := subCommand.getD 2 ""
        let postID := p.getPostIDFromLink link
        match p.getBookmark bmarks postID with
        | .error err =>
          (p.responsef args err.Error,
            [.getBookmarks args.UserId, .getPostIDFromLink link, .getBookmark postID])
        | .ok bmark =>
          match p.getBmarkLabelNames bmarks bmark with
          | .error err =>
            (p.responsef args err.Error,
              [.getBookmarks args.UserId, .getPostIDFromLink link, .getBookmark postID,
                .getBmarkLabelNames])
          | .ok labelNames =>
            match p.getBmarkTextDetailed bmark labelNames args with
            | .error err =>
              (p.responsefOperand args "Unable to get bookmark text " err.Error,
                [.getBookmarks args.UserId, .getPostIDFromLink link, .getBookmark postID,
                  .getBmarkLabelNames, .getBmarkTextDetailed])
            | .ok text =>
              (p.responsef args text,
                [.getBookmarks args.UserId, .getPostIDFromLink link, .getBookmark postID,
                  .getBmarkLabelNames, .getBmarkTextDetailed])
      else
        match p.getBmarksEphemeralText args.UserId with
        | (text, some _) =>
          (p.responsef args text,
            [.getBookmarks args.UserId, .getBmarksEphemeralText args.UserId])
        | (text, none) =>
          (p.responsef args text,
            [.getBookmarks args.UserId, .getBmarksEphemeralText args.UserId])

end Plugin

/-! ## Two writers -/

/-- Two collection instances for the same user, both created empty: the first
performs `add a`, then the second performs `add b`.  The results of the two
calls and the store after them. -/
def addFromTwoInstances (userID : String) (api : API) (a b : Bookmark) :
    Option Error × Option Error × API :=
  let first := (NewBookmarksWithUser userID).add jsonMarshal api a
  let second := (NewBookmarksWithUser userID).add jsonMarshal first.2.2 b
  (first.1, second.1, second.2.2)

/-! ## Repeated calls and test fixtures -/

/-- The collection and the clock after `n` successive calls of
`updateTimes` for the same bookmark. -/
def updateTimesN (bmarkID : String) : Nat → Bookmarks → Clock → Except Panic (Bookmarks × Clock)
  | 0, b, clk => .ok (b, clk)
  | n + 1, b, clk =>
    match b.updateTimes clk bmarkID with
    | .error p => .error p
    | .ok (_, b, clk) => updateTimesN bmarkID n b clk

/-- A store that holds no document and in which every call goes through, as the
mocked API of the tests. -/
def apiMock : API :=
  { kv := fun _ => none, setErr := fun _ _ _ => none, getErr := fun _ _ => none,
    sets := [], gets := [] }

/-- The bookmarks of the tests. -/
def b1 : Bookmark := { PostID := "ID1", Title := "Title1" }

def b2 : Bookmark := { PostID := "ID2", Title := "Title2", LabelIDs := some ["UUID1", "UUID2"] }

def b3 : Bookmark := { PostID := "ID3", Title := "Title3" }

/-- A store in which every `KVSet` fails. -/
def apiSetFails : API :=
  { apiMock with setErr := fun _ _ _ => some (.msg "KVSet: store unavailable") }

/-- The mocked store of the add and delete tests for the user `userID2`, whose
persisted collection holds `ID1` and `ID2`. -/
def apiTwo : API :=
  { apiMock with
    kv := fun k =>
      if k = "bookmarks_userID2" then
        some (encode (((NewBookmarksWithUser "userID2").setEntry "ID1" (some b1)).setEntry "ID2"
          (some b2)))
      else none }

/-- The collection of `userID2` in the tests. -/
def bmarksU2 : Bookmarks :=
  ((NewBookmarksWithUser "userID2").setEntry "ID1" (some b1)).setEntry "ID2" (some b2)

/-- A collection whose only bookmark has a label sequence that is present and
has no elements. -/
def bmarksEmptyLabels : Bookmarks :=
  (NewBookmarksWithUser "userID1").setEntry "ID1" (some { PostID := "ID1", LabelIDs := some [] })

/-- A collection in which the keys `A` and `B` hold the same pointer, as after
`add` of one bookmark under two PostIDs. -/
def bmarksShared : BookmarksRef :=
  { ByID := ((∅ : AList (fun _ : String => Option Nat)).insert "A" (some 1)).insert "B" (some 1)
    userID := "userID1" }

/-- A heap with the stored bookmark at address 1 and, at every other address, an
incoming bookmark for `A` with the label `X`. -/
def heapShared : Heap :=
  fun a => if a = 1 then { PostID := "A" } else { PostID := "A", LabelIDs := some ["X"] }

/-- The collection of `userID2` with its bookmarks at the addresses 1 and 2. -/
def bmarksRefU2 : BookmarksRef :=
  { ByID := ((∅ : AList (fun _ : String => Option Nat)).insert "ID1" (some 1)).insert "ID2"
      (some 2)
    userID := "userID2" }

/-- A heap with `ID1` at address 1, `ID2` at address 2 and, at every other
address, an incoming bookmark for `ID2` with another title and one label. -/
def heapU2 : Heap :=
  fun a =>
    if a = 1 then b1
    else if a = 2 then b2
    else { PostID := "ID2", Title := "Other", CreateAt := 5, LabelIDs := some ["UUID3"] }

/-- A clock that advances by one millisecond between two readings. -/
def tickingClock : Clock :=
  fun n => 1000 + n

/-- Collaborators for a user with one bookmark, in which `getBookmark` fails
with the error `err`. -/
def pluginGetBookmarkFails (err : Error) : Plugin :=
  { getBookmarks := fun u => .ok (some ((NewBookmarksWithUser u).setEntry "ID1" (some b1)))
    getPostIDFromLink := fun link => link
    getBookmark := fun _ _ => .error err
    getBmarkLabelNames := fun _ _ => .ok []
    getBmarkTextDetailed := fun _ _ _ => .ok ""
    getBmarksEphemeralText := fun _ => ("", none) }

/-- Collaborators for a user whose collection has no entries. -/
def pluginNoBookmarks : Plugin :=
  { pluginGetBookmarkFails (.msg "") with
    getBookmarks := fun u => .ok (some (NewBookmarksWithUser u)) }

/-- A request to view the bookmark of one post. -/
def viewOne : CommandArgs :=
  { Command := "/bookmarks view ID1", UserId := "userID1" }

/-- Collaborators for a user with one bookmark, in which `getBmarkLabelNames`
fails with the error `err`. -/
def pluginLabelNamesFail (err : Error) : Plugin :=
  { pluginGetBookmarkFails err with
    getBookmark := fun _ _ => .ok (some b1)
    getBmarkLabelNames := fun _ _ => .error err }

/-- Collaborators for a user with one bookmark, in which `getBmarkTextDetailed`
fails with the error `err`. -/
def pluginTextFails (err : Error) : Plugin :=
  { pluginGetBookmarkFails err with
    getBookmark := fun _ _ => .ok (some b1)
    getBmarkTextDetailed := fun _ _ _ => .error err }

/-! ## Lookup after a map assignment -/

theorem get_setEntry_self (c : Bookmarks) (k : String) (ptr : Option Bookmark) :
    (c.setEntry k ptr).get k = ptr := by
  simp [Bookmarks.get, Bookmarks.setEntry]

theorem get_setEntry_ne (c : Bookmarks) {k k' : String} (h : k' ≠ k) (ptr : Option Bookmark) :
    (c.setEntry k ptr).get k' = c.get k' := by
  simp [Bookmarks.get, Bookmarks.setEntry, AList.lookup_insert_ne h]

theorem storeBookmarks_ok (marshal : Marshal) (c : Bookmarks) (api : API) (doc : Json)
    (hdoc : marshal c = .ok doc)
    (hset : api.setErr api.sets.length (getBookmarksKey c.userID) doc = none) :
    c.storeBookmarks marshal api =
      (none, { api with
        kv := fun k => if k = getBookmarksKey c.userID then some doc else api.kv k
        sets := api.sets ++ [(getBookmarksKey c.userID, doc)] }) := by
  simp [Bookmarks.storeBookmarks, hdoc, API.KVSet, hset]

theorem storeBookmarks_eq_none (marshal : Marshal) (c : Bookmarks) (api : API)
    (hok : (c.storeBookmarks marshal api).1 = none) :
    ∃ doc, marshal c = .ok doc ∧
      api.setErr api.sets.length (getBookmarksKey c.userID) doc = none := by
  unfold Bookmarks.storeBookmarks at hok
  cases hm : marshal c with
  | error e => simp [hm] at hok
  | ok doc =>
    refine ⟨doc, rfl, ?_⟩
    cases hs : api.setErr api.sets.length (getBookmarksKey c.userID) doc with
    | none => rfl
    | some e => simp [hm, API.KVSet, hs] at hok

/-! ## What one call of `updateTimes` does -/

theorem updateTimes_of_zero (c : Bookmarks) (clk : Clock) (id : String) (bm : Bookmark)
    (hget : c.get id = some bm) (hzero : bm.CreateAt = 0) :
    c.updateTimes clk id =
      .ok ({ bm with CreateAt := clk 0, ModifiedAt := clk 1 },
        c.setEntry id (some { bm with CreateAt := clk 0, ModifiedAt := clk 1 }),
        fun n => clk (n + 2)) := by
  simp [Bookmarks.updateTimes, hget, hzero, GetMillis]

theorem updateTimes_of_nonzero (c : Bookmarks) (clk : Clock) (id : String) (bm : Bookmark)
    (hget : c.get id = some bm) (hne : bm.CreateAt ≠ 0) :
    c.updateTimes clk id =
      .ok ({ bm with ModifiedAt := clk 0 },
        c.setEntry id (some { bm with ModifiedAt := clk 0 }),
        fun n => clk (n + 1)) := by
  simp [Bookmarks.updateTimes, hget, hne, GetMillis]

theorem updateTimesN_of_nonzero (id : String) (n : Nat) :
    ∀ (c : Bookmarks) (clk : Clock) (bm : Bookmark),
      c.get id = some bm → bm.CreateAt ≠ 0 →
      ∃ c', updateTimesN id (n + 1) c clk = .ok (c', fun k => clk (k + (n + 1))) ∧
        c'.get id = some { bm with ModifiedAt := clk n } := by
  induction n with
  | zero =>
    intro c clk bm hget hne
    refine ⟨c.setEntry id (some { bm with ModifiedAt := clk 0 }), ?_, get_setEntry_self _ _ _⟩
    simp [updateTimesN, updateTimes_of_nonzero c clk id bm hget hne]
  | succ n ih =>
    intro c clk bm hget hne
    obtain ⟨c', hrun, hget'⟩ := ih (c.setEntry id (some { bm with ModifiedAt := clk 0 }))
      (fun k => clk (k + 1)) { bm with ModifiedAt := clk 0 } (get_setEntry_self _ _ _) hne
    refine ⟨c', ?_, hget'⟩
    rw [updateTimesN, updateTimes_of_nonzero c clk id bm hget hne]
    simp only [hrun]
    rfl

/-! ## Decoding an encoded collection -/

theorem readBack_readBack (b : Bookmark) : b.readBack.readBack = b.readBack := by
  obtain ⟨pid, title, cr, md, labels⟩ := b
  rcases labels with _ | (_ | ⟨id, ids⟩) <;> rfl

theorem foldKey_fields :
    foldKey "postid" = "postid" ∧ foldKey "title" = "title" ∧
    foldKey "create_at" = "create_at" ∧ foldKey "update_at" = "update_at" ∧
    foldKey "label_ids" = "label_ids" ∧ foldKey "ByID" = "byid" := by
  decide

theorem decodeStrings_map_str (ids : List String) :
    decodeStrings (ids.map Json.str) = .ok ids := by
  induction ids with
  | nil => rfl
  | cons id ids ih => simp [decodeStrings, ih, Except.map]

theorem decodePtr_encodeBookmark (b : Bookmark) :
    decodePtr (encodeBookmark b) = .ok (some b.readBack) := by
  obtain ⟨pid, title, cr, md, labels⟩ := b
  have hstr : ∀ (id : String) (ids : List String),
      decodeStrings (Json.str id :: ids.map Json.str) = .ok (id :: ids) :=
    fun id ids => decodeStrings_map_str (id :: ids)
  by_cases ht : title = ""
  · subst ht
    rcases labels with _ | (_ | ⟨id, ids⟩) <;>
      simp [decodePtr, encodeBookmark, decodeBookmark, encodeLabelIDs, decodeField, Except.map,
        Bookmark.readBack, bind, Except.bind, pure, Except.pure, hstr, foldKey_fields]
  · rcases labels with _ | (_ | ⟨id, ids⟩) <;>
      simp [decodePtr, encodeBookmark, decodeBookmark, encodeLabelIDs, decodeField, Except.map,
        Bookmark.readBack, bind, Except.bind, pure, Except.pure, hstr, ht, foldKey_fields]

theorem decodePtr_encodePtr (ptr : Option Bookmark) :
    decodePtr (encodePtr ptr) = .ok (ptr.map Bookmark.readBack) := by
  cases ptr with
  | none => rfl
  | some b => exact decodePtr_encodeBookmark b

theorem foldlM_decodeEntry_encodeEntry (l : List ((_ : String) × Option Bookmark)) :
    ∀ acc : ByIDMap,
      (l.map encodeEntry).foldlM decodeEntry acc =
        .ok (l.foldl (fun m e => m.insert e.1 (e.2.map Bookmark.readBack)) acc) := by
  induction l with
  | nil => intro acc; rfl
  | cons e l ih =>
    intro acc
    simp only [List.map_cons, List.foldlM_cons, List.foldl_cons]
    simp only [decodeEntry, encodeEntry, decodePtr_encodePtr, Except.map, bind, Except.bind]
    exact ih _

theorem lookup_foldl_insert (k : String) (l : List ((_ : String) × Option Bookmark)) :
    ∀ acc : ByIDMap, l.NodupKeys →
      (l.foldl (fun m e => m.insert e.1 (e.2.map Bookmark.readBack)) acc).lookup k =
        match l.dlookup k with
        | some ptr => some (ptr.map Bookmark.readBack)
        | none => acc.lookup k := by
  induction l with
  | nil => intro acc _; rfl
  | cons e l ih =>
    intro acc hnd
    obtain ⟨a, v⟩ := e
    rw [List.nodupKeys_cons] at hnd
    rw [List.foldl_cons, ih _ hnd.2]
    by_cases hk : k = a
    · subst hk
      rw [List.dlookup_cons_eq]
      have : l.dlookup k = none := by
        rw [List.dlookup_eq_none]; exact hnd.1
      simp [this]
    · rw [List.dlookup_cons_ne _ _ hk]
      cases hl : l.dlookup k with
      | some ptr => rfl
      | none => simp [AList.lookup_insert_ne hk]

theorem jsonUnmarshal_encode (c : Bookmarks) (u : String) :
    ∃ c', jsonUnmarshal (encode c) (NewBookmarksWithUser u) = .ok c' ∧
      c'.userID = u ∧
      ∀ k, c'.ByID.lookup k = (c.ByID.lookup k).map (Option.map Bookmark.readBack) := by
  refine ⟨⟨List.foldl (fun m e => m.insert e.1 (e.2.map Bookmark.readBack)) (∅ : ByIDMap)
      (sortedEntries c.ByID), u⟩, ?_, rfl, ?_⟩
  · simp [jsonUnmarshal, encode, encodeByID, decodeTop, NewBookmarksWithUser,
      foldlM_decodeEntry_encodeEntry, Except.map, bind, Except.bind, pure, Except.pure,
      foldKey_fields]
  · intro k
    have hperm : (sortedEntries c.ByID).Perm c.ByID.entries := List.perm_insertionSort _ _
    have hnd : (sortedEntries c.ByID).NodupKeys :=
      (List.perm_nodupKeys hperm).2 c.ByID.nodupKeys
    simp only
    rw [lookup_foldl_insert k _ _ hnd, List.perm_dlookup k hnd c.ByID.nodupKeys hperm]
    show _ = Option.map _ (List.dlookup k c.ByID.entries)
    cases List.dlookup k c.ByID.entries <;> simp

/-! ## Reloading -/

theorem load_of_working_store (u : String) (api : API)
    (hget : api.getErr api.gets.length (getBookmarksKey u) = none) :
    load u api = (persisted api u, { api with gets := api.gets ++ [getBookmarksKey u] }) := by
  unfold load persisted API.KVGet
  rw [hget]
  cases api.kv (getBookmarksKey u) <;> rfl

theorem foldlM_decodeTop_userID (fields : List (String × Json)) :
    ∀ b b' : Bookmarks, fields.foldlM decodeTop b = .ok b' → b'.userID = b.userID := by
  induction fields with
  | nil =>
    intro b b' h
    cases h
    rfl
  | cons f fields ih =>
    intro b b' h
    rw [List.foldlM_cons] at h
    cases hstep : decodeTop b f with
    | error e => simp [hstep, bind, Except.bind] at h
    | ok b₁ =>
      simp only [hstep, bind, Except.bind] at h
      have h₁ : b₁.userID = b.userID := by
        obtain ⟨name, value⟩ := f
        unfold decodeTop at hstep
        split at hstep
        · cases hm : List.foldlM decodeEntry b.ByID ‹List (String × Json)› with
          | error e => simp [hm, Except.map] at hstep
          | ok m =>
            simp only [hm, Except.map] at hstep
            cases hstep
            rfl
        · cases hstep; rfl
        · cases hstep
        · cases hstep; rfl
      rw [ih b₁ b' h, h₁]

theorem persisted_userID (api : API) (u : String) (P : Bookmarks)
    (hP : persisted api u = .ok P) : P.userID = u := by
  unfold persisted at hP
  cases hkv : api.kv (getBookmarksKey u) with
  | none =>
    simp only [hkv] at hP
    cases hP
    rfl
  | some data =>
    simp only [hkv] at hP
    unfold jsonUnmarshal at hP
    split at hP
    · cases hP; rfl
    · exact foldlM_decodeTop_userID _ _ _ hP
    · cases hP

/-! ## What `add` and `storeBookmarks` leave alone -/

theorem add_collection (marshal : Marshal) (c : Bookmarks) (api : API) (b : Bookmark) :
    (c.add marshal api b).2.1 = c.setEntry b.PostID (some b) := by
  cases hs : (c.setEntry b.PostID (some b)).storeBookmarks marshal api with
  | mk err api' => cases err <;> simp only [Bookmarks.add, hs]

theorem add_store (marshal : Marshal) (c : Bookmarks) (api : API) (b : Bookmark) :
    (c.add marshal api b).2.2 = ((c.setEntry b.PostID (some b)).storeBookmarks marshal api).2 := by
  cases hs : (c.setEntry b.PostID (some b)).storeBookmarks marshal api with
  | mk err api' => cases err <;> simp only [Bookmarks.add, hs]

theorem add_eq_none_iff (marshal : Marshal) (c : Bookmarks) (api : API) (b : Bookmark) :
    (c.add marshal api b).1 = none ↔
      ((c.setEntry b.PostID (some b)).storeBookmarks marshal api).1 = none := by
  cases hs : (c.setEntry b.PostID (some b)).storeBookmarks marshal api with
  | mk err api' => cases err <;> simp [Bookmarks.add, hs]

theorem storeBookmarks_gets (marshal : Marshal) (c : Bookmarks) (api : API) :
    (c.storeBookmarks marshal api).2.gets = api.gets := by
  unfold Bookmarks.storeBookmarks
  cases marshal c with
  | error e => rfl
  | ok doc =>
    simp only [API.KVSet]
    cases api.setErr api.sets.length (getBookmarksKey c.userID) doc <;> rfl

theorem storeBookmarks_kv_of_ne (marshal : Marshal) (c : Bookmarks) (api : API) (k : String)
    (hk : k ≠ getBookmarksKey c.userID) :
    (c.storeBookmarks marshal api).2.kv k = api.kv k := by
  unfold Bookmarks.storeBookmarks
  cases marshal c with
  | error e => rfl
  | ok doc =>
    simp only [API.KVSet]
    cases api.setErr api.sets.length (getBookmarksKey c.userID) doc with
    | some e => rfl
    | none => simp [hk]

theorem storeBookmarks_kv_of_error (marshal : Marshal) (c : Bookmarks) (api : API)
    (herr : (c.storeBookmarks marshal api).1 ≠ none) (k : String) :
    (c.storeBookmarks marshal api).2.kv k = api.kv k := by
  unfold Bookmarks.storeBookmarks at herr ⊢
  cases hm : marshal c with
  | error e => rfl
  | ok doc =>
    simp only [hm, API.KVSet] at herr ⊢
    cases hs : api.setErr api.sets.length (getBookmarksKey c.userID) doc with
    | some e => rfl
    | none => simp [hs] at herr

theorem getBookmarksKey_injective (u₁ u₂ : String)
    (h : getBookmarksKey u₁ = getBookmarksKey u₂) : u₁ = u₂ := by
  unfold getBookmarksKey at h
  have hdata := congrArg String.data h
  simp only [String.data_append] at hdata
  exact String.ext (List.append_cancel_left hdata)

/-! ## Repeated calls from a zero `CreateAt`, and clocks that do not run back -/

theorem updateTimesN_of_zero (id : String) (c : Bookmarks) (clk : Clock) (bm : Bookmark)
    (hget : c.get id = some bm) (hzero : bm.CreateAt = 0) (hclk : clk 0 ≠ 0) (n : Nat) :
    ∃ c', updateTimesN id (n + 1) c clk = .ok (c', fun k => clk (k + (n + 2))) ∧
      c'.get id = some { bm with CreateAt := clk 0, ModifiedAt := clk (n + 1) } := by
  have hfirst := updateTimes_of_zero c clk id bm hget hzero
  cases n with
  | zero =>
    refine ⟨c.setEntry id (some { bm with CreateAt := clk 0, ModifiedAt := clk 1 }), ?_,
      get_setEntry_self _ _ _⟩
    simp [updateTimesN, hfirst]
  | succ n =>
    obtain ⟨c', hrun, hget'⟩ := updateTimesN_of_nonzero id n
      (c.setEntry id (some { bm with CreateAt := clk 0, ModifiedAt := clk 1 }))
      (fun k => clk (k + 2)) { bm with CreateAt := clk 0, ModifiedAt := clk 1 }
      (get_setEntry_self _ _ _) hclk
    refine ⟨c', ?_, ?_⟩
    · rw [updateTimesN, hfirst]
      simp only [hrun]
      rfl
    · rw [hget']

theorem clock_le_of_nondecreasing (clk : Clock) (hmono : ∀ n, clk n ≤ clk (n + 1)) (n : Nat) :
    clk 0 ≤ clk n := by
  induction n with
  | zero => exact le_refl _
  | succ n ih => exact le_trans ih (hmono n)

/-! ## The characters a directive leaves are the end of the format -/

theorem parsenum_suffix (cs : List Char) : ∀ (num : Nat) (isnum : Bool),
    (parsenum cs num isnum).2 <:+ cs := by
  induction cs with
  | nil => intro _ _; exact List.suffix_refl _
  | cons c cs ih =>
    intro num isnum
    unfold parsenum
    split
    · split
      · exact List.nil_suffix
      · exact (ih _ _).trans (List.suffix_cons c cs)
    · exact List.suffix_refl _

theorem splitBracket_suffix (cs : List Char) : ∀ inside after,
    splitBracket cs = some (inside, after) → after <:+ cs := by
  induction cs with
  | nil => intro _ _ h; simp [splitBracket] at h
  | cons c cs ih =>
    intro inside after h
    unfold splitBracket at h
    split at h
    · cases h
      exact List.suffix_cons c cs
    · cases hs : splitBracket cs with
      | none => simp [hs] at h
      | some r =>
        obtain ⟨i, a⟩ := r
        simp [hs] at h
        obtain ⟨-, rfl⟩ := h
        exact (ih i a hs).trans (List.suffix_cons c cs)

theorem argNumber_suffix (cs : List Char) : (argNumber cs).1 <:+ cs := by
  unfold argNumber
  split
  · exact List.suffix_refl _
  · rename_i c rest
    split
    · split
      · exact List.suffix_cons c rest
      · split
        · exact List.suffix_cons c rest
        · rename_i inside after hs
          exact (splitBracket_suffix rest inside after hs).trans (List.suffix_cons c rest)
    · exact List.suffix_refl _

theorem parseWidth_suffix (cs : List Char) (afterIndex : Bool) :
    (parseWidth cs afterIndex).2.1 <:+ cs := by
  unfold parseWidth
  split
  · exact List.suffix_refl _
  · rename_i c rest
    split
    · exact List.suffix_cons c rest
    · exact parsenum_suffix _ _ _

theorem parsePrecision_suffix (cs : List Char) (afterIndex : Bool) :
    (parsePrecision cs afterIndex).2.1 <:+ cs := by
  unfold parsePrecision
  split
  · exact List.suffix_refl _
  · rename_i c rest
    split
    · have hrest := (argNumber_suffix rest).trans (List.suffix_cons c rest)
      split
      · exact List.nil_suffix
      · rename_i d rest' hd
        rw [hd] at hrest
        split
        · exact (List.suffix_cons d rest').trans hrest
        · exact (parsenum_suffix _ _ _).trans hrest
    · exact List.suffix_refl _

theorem beforeVerb_suffix (cs : List Char) : (beforeVerb cs).2.1 <:+ cs := by
  have h₁ : (argNumber (cs.dropWhile isFlag)).1 <:+ cs :=
    (argNumber_suffix _).trans (List.dropWhile_suffix _)
  have h₂ := (parseWidth_suffix (argNumber (cs.dropWhile isFlag)).1
    (argNumber (cs.dropWhile isFlag)).2.1).trans h₁
  have h₃ := (parsePrecision_suffix _
    (parseWidth (argNumber (cs.dropWhile isFlag)).1
      (argNumber (cs.dropWhile isFlag)).2.1).2.2.1).trans h₂
  simp only [beforeVerb]
  split
  · exact h₃
  · exact (argNumber_suffix _).trans h₃

theorem directive_suffix (cs out rest : List Char) (h : directive cs = (out, some rest)) :
    ∃ taken, taken ≠ [] ∧ taken ++ rest = cs := by
  have hsuf := beforeVerb_suffix cs
  unfold directive at h
  split at h
  · cases h
  · rename_i o verb rest' bad hb
    rw [hb] at hsuf
    have hrest : rest = rest' := by
      split at h
      · cases h; rfl
      · split at h <;> (cases h; rfl)
    subst hrest
    obtain ⟨t, ht⟩ := hsuf
    exact ⟨t ++ [verb], by simp, by simp [← ht]⟩

theorem doPrintf_skip (cs : List Char) : ∀ n, doPrintf cs n = doPrintf (cs.drop n) 0 := by
  induction cs with
  | nil => intro n; simp [doPrintf]
  | cons c cs ih =>
    intro n
    cases n with
    | zero => rfl
    | succ n => simp [doPrintf, ih n]

/-- After a directive `doPrintf` goes on with the characters the directive left. -/
theorem doPrintf_percent (cs out rest : List Char) (h : directive cs = (out, some rest)) :
    doPrintf ('%' :: cs) 0 = out ++ doPrintf rest 0 := by
  obtain ⟨taken, -, ht⟩ := directive_suffix cs out rest h
  have hdrop : cs.drop (cs.length - rest.length) = rest := by
    subst ht
    simp
  simp only [doPrintf, h, ↓reduceIte]
  rw [doPrintf_skip, hdrop]

/-! ## Formats without a per-cent sign, and the responses to failures -/

theorem doPrintf_of_no_percent (cs : List Char) (h : '%' ∉ cs) : doPrintf cs 0 = cs := by
  induction cs with
  | nil => rfl
  | cons c cs ih =>
    have hc : c ≠ '%' := fun hc => h (by simp [hc])
    have hcs : '%' ∉ cs := fun hmem => h (List.mem_cons_of_mem _ hmem)
    simp [doPrintf, hc, ih hcs]

theorem Sprintf_of_no_percent (format : String) (h : '%' ∉ format.data) :
    Sprintf format = format := by
  unfold Sprintf
  rw [doPrintf_of_no_percent _ h]

theorem executeCommandView_of_getBookmark_error (p : Plugin) (args : CommandArgs)
    (bmarks : Bookmarks) (e : Error)
    (hb : p.getBookmarks args.UserId = .ok (some bmarks)) (hlen : bmarks.len ≠ 0)
    (hthree : (Fields args.Command).length = 3)
    (he : p.getBookmark bmarks (p.getPostIDFromLink ((Fields args.Command).getD 2 "")) =
      .error e) :
    (p.executeCommandView args).1 = Sprintf e.Error := by
  simp only [Plugin.executeCommandView, hb, if_neg hlen, hthree, ↓reduceIte, he,
    Plugin.responsef]

theorem executeCommandView_of_getBmarkLabelNames_error (p : Plugin) (args : CommandArgs)
    (bmarks : Bookmarks) (bmark : Option Bookmark) (e : Error)
    (hb : p.getBookmarks args.UserId = .ok (some bmarks)) (hlen : bmarks.len ≠ 0)
    (hthree : (Fields args.Command).length = 3)
    (hbm : p.getBookmark bmarks (p.getPostIDFromLink ((Fields args.Command).getD 2 "")) =
      .ok bmark)
    (he : p.getBmarkLabelNames bmarks bmark = .error e) :
    (p.executeCommandView args).1 = Sprintf e.Error := by
  simp only [Plugin.executeCommandView, hb, if_neg hlen, hthree, ↓reduceIte, hbm, he,
    Plugin.responsef]

/-! ## Values and pointers agree where no pointer is shared -/

theorem entry_update_of_not_held (r : BookmarksRef) (heap : Heap) (q : Nat) (v : Bookmark)
    (k : String) (hk : r.ByID.lookup k ≠ some (some q)) :
    r.entry (Function.update heap q v) k = r.entry heap k := by
  unfold BookmarksRef.entry
  cases hl : r.ByID.lookup k with
  | none => rfl
  | some ptr =>
    cases ptr with
    | none => rfl
    | some a =>
      have ha : a ≠ q := fun h => hk (by rw [hl, h])
      simp [Function.update_noteq ha]

theorem entry_update_of_held (r : BookmarksRef) (heap : Heap) (q : Nat) (v : Bookmark)
    (k : String) (hk : r.ByID.lookup k = some (some q)) :
    r.entry (Function.update heap q v) k = some (some v) := by
  simp [BookmarksRef.entry, hk]

theorem updateLabels_ref (r : BookmarksRef) (heap : Heap) (api : API) (q bmark : Nat)
    (hq : r.ByID.lookup (heap bmark).PostID = some (some q)) :
    r.updateLabels heap api bmark =
      .ok (bmark, Function.update heap q ((heap q).addLabelIDs (heap bmark).getLabelIDs),
        api) := by
  simp [BookmarksRef.updateLabels, BookmarksRef.get, hq]

/-- On a collection in which no other key holds the pointer stored under the
PostID of the incoming bookmark, `updateLabels` on values shows what
`updateLabels` on pointers does. -/
theorem updateLabels_value_of_ref (c : Bookmarks) (r : BookmarksRef) (heap : Heap) (api : API)
    (q bmark : Nat)
    (hview : ∀ k, c.ByID.lookup k = r.entry heap k)
    (hq : r.ByID.lookup (heap bmark).PostID = some (some q))
    (hown : ∀ k, k ≠ (heap bmark).PostID → r.ByID.lookup k ≠ some (some q)) :
    ∃ c' heap', c.updateLabels (heap bmark) = .ok (heap bmark, c') ∧
      r.updateLabels heap api bmark = .ok (bmark, heap', api) ∧
      ∀ k, c'.ByID.lookup k = r.entry heap' k := by
  have hget : c.get (heap bmark).PostID = some (heap q) := by
    simp [Bookmarks.get, hview, BookmarksRef.entry, hq]
  refine ⟨c.setEntry (heap bmark).PostID
      (some ((heap q).addLabelIDs (heap bmark).getLabelIDs)),
    Function.update heap q ((heap q).addLabelIDs (heap bmark).getLabelIDs), ?_,
    updateLabels_ref r heap api q bmark hq, ?_⟩
  · simp [Bookmarks.updateLabels, hget]
  · intro k
    by_cases hk : k = (heap bmark).PostID
    · rw [hk, entry_update_of_held r heap q _ _ hq]
      simp [Bookmarks.setEntry]
    · rw [entry_update_of_not_held r heap q _ k (hown k hk), ← hview]
      simp [Bookmarks.setEntry, AList.lookup_insert_ne hk]

/-- On a collection in which no other key holds the pointer stored under the id,
`updateTimes` on values shows what `updateTimes` on pointers does. -/
theorem updateTimes_value_of_ref (c : Bookmarks) (r : BookmarksRef) (heap : Heap) (clk : Clock)
    (id : String) (q : Nat)
    (hview : ∀ k, c.ByID.lookup k = r.entry heap k)
    (hq : r.ByID.lookup id = some (some q))
    (hown : ∀ k, k ≠ id → r.ByID.lookup k ≠ some (some q)) :
    ∃ bm c' heap' clk', c.updateTimes clk id = .ok (bm, c', clk') ∧
      r.updateTimes heap clk id = .ok (q, heap', clk') ∧
      heap' q = bm ∧ ∀ k, c'.ByID.lookup k = r.entry heap' k := by
  have hget : c.get id = some (heap q) := by
    simp [Bookmarks.get, hview, BookmarksRef.entry, hq]
  have hrget : r.get id = some q := by simp [BookmarksRef.get, hq]
  have hentries : ∀ (v : Bookmark) (k : String),
      (c.setEntry id (some v)).ByID.lookup k = r.entry (Function.update heap q v) k := by
    intro v k
    by_cases hk : k = id
    · rw [hk, entry_update_of_held r heap q _ _ hq]
      simp [Bookmarks.setEntry]
    · rw [entry_update_of_not_held r heap q _ k (hown k hk), ← hview]
      simp [Bookmarks.setEntry, AList.lookup_insert_ne hk]
  by_cases hz : (heap q).CreateAt = 0
  · refine ⟨_, _, Function.update heap q
        { heap q with CreateAt := clk 0, ModifiedAt := clk 1 }, _,
      updateTimes_of_zero c clk id (heap q) hget hz, ?_, by simp, hentries _⟩
    simp [BookmarksRef.updateTimes, hrget, hz, GetMillis]
  · refine ⟨_, _, Function.update heap q { heap q with ModifiedAt := clk 0 }, _,
      updateTimes_of_nonzero c clk id (heap q) hget hz, ?_, by simp, hentries _⟩
    simp [BookmarksRef.updateTimes, hrget, hz, GetMillis]

/-! ## Claims -/

/-- C1: when the store write succeeds (the collection is encoded and `KVSet`
answers without error), `add b` returns no error, afterwards `get b.PostID` is
`b` itself, with its PostID, Title, CreateAt, ModifiedAt and LabelIDs, whatever
was stored under that key before, and `get k` for every other key `k` is what it
was before the call. -/
theorem add_then_get (marshal : Marshal) (c : Bookmarks) (api : API) (b : Bookmark)
    (doc : Json)
    (hdoc : marshal (c.setEntry b.PostID (some b)) = .ok doc)
    (hset : api.setErr api.sets.length (getBookmarksKey c.userID) doc = none) :
    (c.add marshal api b).1 = none ∧
    (c.add marshal api b).2.1.get b.PostID = some b ∧
    ∀ k, k ≠ b.PostID → (c.add marshal api b).2.1.get k = c.get k := by
  have hstore := storeBookmarks_ok marshal (c.setEntry b.PostID (some b)) api doc hdoc hset
  have hadd : c.add marshal api b = (none, c.setEntry b.PostID (some b),
      { api with
        kv := fun k => if k = getBookmarksKey c.userID then some doc else api.kv k
        sets := api.sets ++ [(getBookmarksKey c.userID, doc)] }) := by
    unfold Bookmarks.add
    simp only [hstore]
    rfl
  rw [hadd]
  exact ⟨rfl, get_setEntry_self _ _ _, fun k hk => get_setEntry_ne _ hk _⟩

/-- Witness of C1: the first `add` of the storage test, on the empty collection
of `userID1`. -/
theorem add_then_get_witness :
    ((NewBookmarksWithUser "userID1").add jsonMarshal apiMock b1).1 = none ∧
    ((NewBookmarksWithUser "userID1").add jsonMarshal apiMock b1).2.1.get b1.PostID = some b1 ∧
    ∀ k, k ≠ b1.PostID →
      ((NewBookmarksWithUser "userID1").add jsonMarshal apiMock b1).2.1.get k =
        (NewBookmarksWithUser "userID1").get k :=
  add_then_get jsonMarshal (NewBookmarksWithUser "userID1") apiMock b1
    (encode ((NewBookmarksWithUser "userID1").setEntry b1.PostID (some b1))) rfl rfl

/-- C2: a successful `add b` on a collection bound to user `u` makes exactly one
store write, to the key `bookmarks_` followed by `u`, and the value written is
the encoding of the whole in-memory collection, that is of the collection in
which `b.PostID` is `b` and every other key is as before; a successful
`storeBookmarks` likewise makes exactly one write, of the encoding of the whole
collection, to that key. -/
theorem add_writes_whole_collection_once (marshal : Marshal) (c : Bookmarks) (api : API)
    (b : Bookmark) :
    ((c.add marshal api b).1 = none →
      ∃ doc,
        marshal (c.add marshal api b).2.1 = .ok doc ∧
        (c.add marshal api b).2.2.sets = api.sets ++ [("bookmarks_" ++ c.userID, doc)] ∧
        (c.add marshal api b).2.2.kv ("bookmarks_" ++ c.userID) = some doc ∧
        (c.add marshal api b).2.1.get b.PostID = some b ∧
        ∀ k, k ≠ b.PostID → (c.add marshal api b).2.1.get k = c.get k) ∧
    ((c.storeBookmarks marshal api).1 = none →
      ∃ doc,
        marshal c = .ok doc ∧
        (c.storeBookmarks marshal api).2.sets = api.sets ++ [("bookmarks_" ++ c.userID, doc)] ∧
        (c.storeBookmarks marshal api).2.kv ("bookmarks_" ++ c.userID) = some doc) := by
  constructor
  · intro hok
    have hstore : ((c.setEntry b.PostID (some b)).storeBookmarks marshal api).1 = none := by
      unfold Bookmarks.add at hok
      cases hs : (c.setEntry b.PostID (some b)).storeBookmarks marshal api with
      | mk err api' =>
        cases err with
        | none => rfl
        | some e => simp [hs] at hok
    obtain ⟨doc, hdoc, hset⟩ := storeBookmarks_eq_none marshal _ api hstore
    have hst := storeBookmarks_ok marshal (c.setEntry b.PostID (some b)) api doc hdoc hset
    have hadd : c.add marshal api b = (none, c.setEntry b.PostID (some b),
        { api with
          kv := fun k => if k = getBookmarksKey c.userID then some doc else api.kv k
          sets := api.sets ++ [(getBookmarksKey c.userID, doc)] }) := by
      unfold Bookmarks.add
      simp only [hst]
      rfl
    rw [hadd]
    refine ⟨doc, hdoc, rfl, ?_, get_setEntry_self _ _ _, fun k hk => get_setEntry_ne _ hk _⟩
    simp [getBookmarksKey]
  · intro hok
    obtain ⟨doc, hdoc, hset⟩ := storeBookmarks_eq_none marshal c api hok
    rw [storeBookmarks_ok marshal c api doc hdoc hset]
    refine ⟨doc, hdoc, rfl, ?_⟩
    simp [getBookmarksKey]

/-- Witness of C2: the storage test, `add ID1` then `add ID2` for `userID1`
followed by `storeBookmarks`, each step writing once to `bookmarks_userID1`. -/
theorem add_writes_whole_collection_once_witness :
    (∃ doc,
      jsonMarshal (((NewBookmarksWithUser "userID1").setEntry "ID1" (some b1)).add
        jsonMarshal apiMock b2).2.1 = .ok doc ∧
      (((NewBookmarksWithUser "userID1").setEntry "ID1" (some b1)).add
        jsonMarshal apiMock b2).2.2.sets = apiMock.sets ++ [("bookmarks_" ++ "userID1", doc)] ∧
      (((NewBookmarksWithUser "userID1").setEntry "ID1" (some b1)).add
        jsonMarshal apiMock b2).2.2.kv ("bookmarks_" ++ "userID1") = some doc ∧
      (((NewBookmarksWithUser "userID1").setEntry "ID1" (some b1)).add
        jsonMarshal apiMock b2).2.1.get b2.PostID = some b2 ∧
      ∀ k, k ≠ b2.PostID →
        (((NewBookmarksWithUser "userID1").setEntry "ID1" (some b1)).add
          jsonMarshal apiMock b2).2.1.get k =
          ((NewBookmarksWithUser "userID1").setEntry "ID1" (some b1)).get k) ∧
    (∃ doc,
      jsonMarshal ((NewBookmarksWithUser "userID1").setEntry "ID1" (some b1)) = .ok doc ∧
      (((NewBookmarksWithUser "userID1").setEntry "ID1" (some b1)).storeBookmarks
        jsonMarshal apiMock).2.sets = apiMock.sets ++ [("bookmarks_" ++ "userID1", doc)] ∧
      (((NewBookmarksWithUser "userID1").setEntry "ID1" (some b1)).storeBookmarks
        jsonMarshal apiMock).2.kv ("bookmarks_" ++ "userID1") = some doc) :=
  ⟨(add_writes_whole_collection_once jsonMarshal
      ((NewBookmarksWithUser "userID1").setEntry "ID1" (some b1)) apiMock b2).1 rfl,
   (add_writes_whole_collection_once jsonMarshal
      ((NewBookmarksWithUser "userID1").setEntry "ID1" (some b1)) apiMock b2).2 rfl⟩

/-- C3, evaluated where it fails: for a bookmark with `CreateAt` zero and a clock
whose first two readings are 1000 and 1001, `updateTimes` takes `CreateAt` from
the first reading and `ModifiedAt` from the second, so the two differ after the
call. -/
theorem updateTimes_first_call_reads_twice :
    ∃ bm c' clk',
      ((NewBookmarksWithUser "userID1").setEntry "ID1" (some b1)).updateTimes tickingClock "ID1" =
        .ok (bm, c', clk') ∧
      c'.get "ID1" = some bm ∧
      bm.CreateAt = 1000 ∧ bm.ModifiedAt = 1001 ∧ bm.CreateAt ≠ bm.ModifiedAt := by
  refine ⟨_, _, _, updateTimes_of_zero _ tickingClock "ID1" b1 (by decide) rfl, ?_, ?_, ?_, ?_⟩
  · exact get_setEntry_self _ _ _
  · decide
  · decide
  · decide

/-- C4: for an id whose bookmark has a non-zero `CreateAt`, `updateTimes` leaves
`CreateAt` as it is and sets `ModifiedAt` to the clock reading of the call; and
for a bookmark that starts with `CreateAt` zero, when the first reading is not
zero, after any number `n + 1` of successive calls `CreateAt` is the reading
taken by the first call and `ModifiedAt` the reading of the last call, so the
second call (at `now2`, the third reading) gives `ModifiedAt = now2` with
`CreateAt` still `now1`. -/
theorem updateTimes_sets_CreateAt_once (c : Bookmarks) (clk : Clock) (id : String)
    (bm : Bookmark) (hget : c.get id = some bm) :
    (bm.CreateAt ≠ 0 →
      ∃ c', c.updateTimes clk id = .ok ({ bm with ModifiedAt := clk 0 }, c', fun n => clk (n + 1)) ∧
        c'.get id = some { bm with ModifiedAt := clk 0 }) ∧
    (bm.CreateAt = 0 → clk 0 ≠ 0 →
      ∀ n, ∃ c', updateTimesN id (n + 1) c clk = .ok (c', fun k => clk (k + (n + 2))) ∧
        c'.get id = some { bm with CreateAt := clk 0, ModifiedAt := clk (n + 1) }) := by
  constructor
  · intro hne
    exact ⟨_, updateTimes_of_nonzero c clk id bm hget hne, get_setEntry_self _ _ _⟩
  · intro hzero hclk n
    have hfirst := updateTimes_of_zero c clk id bm hget hzero
    cases n with
    | zero =>
      refine ⟨c.setEntry id (some { bm with CreateAt := clk 0, ModifiedAt := clk 1 }), ?_,
        get_setEntry_self _ _ _⟩
      simp [updateTimesN, hfirst]
    | succ n =>
      obtain ⟨c', hrun, hget'⟩ := updateTimesN_of_nonzero id n
        (c.setEntry id (some { bm with CreateAt := clk 0, ModifiedAt := clk 1 }))
        (fun k => clk (k + 2)) { bm with CreateAt := clk 0, ModifiedAt := clk 1 }
        (get_setEntry_self _ _ _) hclk
      refine ⟨c', ?_, ?_⟩
      · rw [updateTimesN, hfirst]
        simp only [hrun]
        rfl
      · rw [hget']

/-- Witness of C4: the bookmark `ID1` of the tests, first with `CreateAt` already
set to 7, then starting from zero under a clock that reads 1000, 1001, 1002. -/
theorem updateTimes_sets_CreateAt_once_witness :
    (∃ c', ((NewBookmarksWithUser "userID1").setEntry "ID1"
          (some { b1 with CreateAt := 7 })).updateTimes tickingClock "ID1" =
        .ok ({ b1 with CreateAt := 7, ModifiedAt := tickingClock 0 }, c',
          fun n => tickingClock (n + 1)) ∧
      c'.get "ID1" = some { b1 with CreateAt := 7, ModifiedAt := tickingClock 0 }) ∧
    (∃ c', updateTimesN "ID1" (1 + 1) ((NewBookmarksWithUser "userID1").setEntry "ID1" (some b1))
          tickingClock = .ok (c', fun k => tickingClock (k + (1 + 2))) ∧
      c'.get "ID1" = some { b1 with CreateAt := tickingClock 0, ModifiedAt := tickingClock (1 + 1) }) :=
  ⟨(updateTimes_sets_CreateAt_once
      ((NewBookmarksWithUser "userID1").setEntry "ID1" (some { b1 with CreateAt := 7 }))
      tickingClock "ID1" { b1 with CreateAt := 7 } (by decide)).1 (by decide),
   (updateTimes_sets_CreateAt_once ((NewBookmarksWithUser "userID1").setEntry "ID1" (some b1))
      tickingClock "ID1" b1 (by decide)).2 (by decide) (by decide) 1⟩

/-- C5: when the collection holds a bookmark under `p`, with whatever label
sequence, and the incoming bookmark `b'` has PostID `p`, after `updateLabels b'`
the label sequence of the stored bookmark is the label sequence of `b'` itself:
the same elements in the same order, duplicates kept, nothing of the former
sequence retained. -/
theorem updateLabels_overwrites (c : Bookmarks) (p : String) (stored b' : Bookmark)
    (hget : c.get p = some stored) (hp : b'.PostID = p) :
    ∃ c', c.updateLabels b' = .ok (b', c') ∧
      c'.get p = some { stored with LabelIDs := b'.LabelIDs } := by
  subst hp
  refine ⟨c.setEntry b'.PostID (some (stored.addLabelIDs b'.getLabelIDs)), ?_, ?_⟩
  · simp [Bookmarks.updateLabels, hget]
  · rw [get_setEntry_self]
    rfl

/-- Witness of C5: the stored bookmark has labels `A, B`, the incoming one has
the label `C` twice; afterwards the stored labels are `C, C`. -/
theorem updateLabels_overwrites_witness :
    ∃ c', ((NewBookmarksWithUser "userID1").setEntry "ID1"
          (some { b1 with LabelIDs := some ["A", "B"] })).updateLabels
            { PostID := "ID1", LabelIDs := some ["C", "C"] } =
        .ok ({ PostID := "ID1", LabelIDs := some ["C", "C"] }, c') ∧
      c'.get "ID1" = some { b1 with LabelIDs := some ["C", "C"] } :=
  updateLabels_overwrites
    ((NewBookmarksWithUser "userID1").setEntry "ID1" (some { b1 with LabelIDs := some ["A", "B"] }))
    "ID1" { b1 with LabelIDs := some ["A", "B"] } { PostID := "ID1", LabelIDs := some ["C", "C"] }
    (by decide) rfl

/-- C6: when the store answers the read and the collection persisted for the
user does not hold `id` (in particular when it has no entries, or when there is
no document yet), `deleteBookmark id` fails with an error whose message is
exactly the word Bookmark, the id between backticks, and the words does not
exist; no write is made and the persisted documents are as before. -/
theorem deleteBookmark_absent (c : Bookmarks) (api : API) (id : String) (P : Bookmarks)
    (hget : api.getErr api.gets.length (getBookmarksKey c.userID) = none)
    (hP : persisted api c.userID = .ok P)
    (habs : P.ByID.lookup id = none) :
    (∃ err, (c.deleteBookmark api id).1 = .error err ∧
      err.Error = "Bookmark `" ++ id ++ "` does not exist") ∧
    (c.deleteBookmark api id).2.2.kv = api.kv ∧
    (c.deleteBookmark api id).2.2.sets = api.sets := by
  unfold Bookmarks.deleteBookmark
  rw [load_of_working_store _ _ hget, hP]
  simp [Bookmarks.exists, habs, Error.Error]

/-- Witness of C6: the delete test for `userID1`, whose collection has no
entries; the message is the one the test expects for `ID2`. -/
theorem deleteBookmark_absent_witness :
    (∃ err, ((NewBookmarksWithUser "userID1").deleteBookmark apiMock "ID2").1 = .error err ∧
      err.Error = "Bookmark `" ++ "ID2" ++ "` does not exist") ∧
    ((NewBookmarksWithUser "userID1").deleteBookmark apiMock "ID2").2.2.kv = apiMock.kv ∧
    ((NewBookmarksWithUser "userID1").deleteBookmark apiMock "ID2").2.2.sets = apiMock.sets :=
  deleteBookmark_absent (NewBookmarksWithUser "userID1") apiMock "ID2"
    (NewBookmarksWithUser "userID1") rfl rfl rfl

/-- C7: when the store works and the collection `P` persisted for the user holds
`id`, `deleteBookmark id` returns no error and returns the bookmark stored under
`id`; the document persisted afterwards is the encoding of `P` without `id`,
which holds exactly the entries of `P` other than `id`, each unchanged; and when
the document read was one written by `storeBookmarks`, reading the store again
gives exactly those entries.  For the persisted `ID1`, `ID2`, deleting `ID2`
leaves `ID1` only. -/
theorem deleteBookmark_present (c : Bookmarks) (api : API) (id : String) (P : Bookmarks)
    (ptr : Option Bookmark)
    (hget : api.getErr api.gets.length (getBookmarksKey c.userID) = none)
    (hP : persisted api c.userID = .ok P)
    (hin : P.ByID.lookup id = some ptr)
    (hset : api.setErr api.sets.length (getBookmarksKey c.userID) (encode (P.delete id)) = none) :
    (c.deleteBookmark api id).1 = .ok ptr ∧
    (c.deleteBookmark api id).2.2.kv (getBookmarksKey c.userID) = some (encode (P.delete id)) ∧
    (P.delete id).ByID.lookup id = none ∧
    (∀ k, k ≠ id → (P.delete id).ByID.lookup k = P.ByID.lookup k) ∧
    ((∃ P₀, api.kv (getBookmarksKey c.userID) = some (encode P₀)) →
      ∃ P', persisted (c.deleteBookmark api id).2.2 c.userID = .ok P' ∧
        P'.ByID.lookup id = none ∧ ∀ k, k ≠ id → P'.ByID.lookup k = P.ByID.lookup k) := by
  have hu : (P.delete id).userID = c.userID := persisted_userID api c.userID P hP
  have hstore := storeBookmarks_ok jsonMarshal (P.delete id)
    { api with gets := api.gets ++ [getBookmarksKey c.userID] } (encode (P.delete id)) rfl
    (by rw [hu]; exact hset)
  have hrun : c.deleteBookmark api id = (.ok ptr, P.delete id,
      { api with
        gets := api.gets ++ [getBookmarksKey c.userID]
        kv := fun k => if k = getBookmarksKey c.userID then some (encode (P.delete id))
          else api.kv k
        sets := api.sets ++ [(getBookmarksKey c.userID, encode (P.delete id))] }) := by
    unfold Bookmarks.deleteBookmark
    rw [load_of_working_store _ _ hget, hP]
    simp only [Bookmarks.exists, hin, hstore, hu]
  rw [hrun]
  refine ⟨rfl, by simp, ?_, ?_, ?_⟩
  · simp [Bookmarks.delete]
  · intro k hk
    simp [Bookmarks.delete, AList.lookup_erase_ne hk]
  · rintro ⟨P₀, hdoc⟩
    have hP' : jsonUnmarshal (encode P₀) (NewBookmarksWithUser c.userID) = .ok P := by
      simpa [persisted, hdoc] using hP
    obtain ⟨Q, hQ, -, hQl⟩ := jsonUnmarshal_encode P₀ c.userID
    rw [hP'] at hQ
    cases hQ
    obtain ⟨P', hdec, -, hl⟩ := jsonUnmarshal_encode (P.delete id) c.userID
    refine ⟨P', by simpa [persisted] using hdec, ?_, ?_⟩
    · rw [hl]
      simp [Bookmarks.delete]
    · intro k hk
      rw [hl]
      simp only [Bookmarks.delete, AList.lookup_erase_ne hk]
      rw [hQl]
      cases P₀.ByID.lookup k with
      | none => rfl
      | some q =>
        cases q with
        | none => rfl
        | some b => simp [readBack_readBack]

/-- Witness of C7: the delete test for `userID2`, whose persisted collection holds
`ID1` and `ID2`, in a document written by `storeBookmarks`; `ID2` is deleted. -/
theorem deleteBookmark_present_witness :
    (bmarksU2.deleteBookmark apiTwo "ID2").1 = .ok (some b2) ∧
    (bmarksU2.deleteBookmark apiTwo "ID2").2.2.kv (getBookmarksKey bmarksU2.userID) =
      some (encode (bmarksU2.delete "ID2")) ∧
    (bmarksU2.delete "ID2").ByID.lookup "ID2" = none ∧
    (∀ k, k ≠ "ID2" → (bmarksU2.delete "ID2").ByID.lookup k = bmarksU2.ByID.lookup k) ∧
    (∃ P', persisted (bmarksU2.deleteBookmark apiTwo "ID2").2.2 bmarksU2.userID = .ok P' ∧
      P'.ByID.lookup "ID2" = none ∧
      ∀ k, k ≠ "ID2" → P'.ByID.lookup k = bmarksU2.ByID.lookup k) :=
  have h := deleteBookmark_present bmarksU2 apiTwo "ID2" bmarksU2 (some b2) rfl rfl rfl rfl
  ⟨h.1, h.2.1, h.2.2.1, h.2.2.2.1, h.2.2.2.2 ⟨bmarksU2, rfl⟩⟩

/-- C8: when the store works, the collection persisted for the user is `P` and
`b.PostID` is not a key of `P`, `addBookmark b` reads the store once, at the key
of the user, succeeds, and leaves the collection with exactly one entry more
than `P`: `b` under `b.PostID`, every entry of `P` unchanged; the document
persisted is the encoding of exactly that collection. -/
theorem addBookmark_new (c : Bookmarks) (api : API) (b : Bookmark) (P : Bookmarks)
    (hget : api.getErr api.gets.length (getBookmarksKey c.userID) = none)
    (hP : persisted api c.userID = .ok P)
    (hnew : P.ByID.lookup b.PostID = none)
    (hset : api.setErr api.sets.length (getBookmarksKey c.userID)
      (encode (P.setEntry b.PostID (some b))) = none) :
    (c.addBookmark api b).1 = none ∧
    (c.addBookmark api b).2.2.gets = api.gets ++ [getBookmarksKey c.userID] ∧
    (c.addBookmark api b).2.1.len = P.len + 1 ∧
    (c.addBookmark api b).2.1.ByID.lookup b.PostID = some (some b) ∧
    (∀ k, k ≠ b.PostID → (c.addBookmark api b).2.1.ByID.lookup k = P.ByID.lookup k) ∧
    (c.addBookmark api b).2.2.kv (getBookmarksKey c.userID) =
      some (encode (c.addBookmark api b).2.1) := by
  have hu : (P.setEntry b.PostID (some b)).userID = c.userID :=
    persisted_userID api c.userID P hP
  have hstore := storeBookmarks_ok jsonMarshal (P.setEntry b.PostID (some b))
    { api with gets := api.gets ++ [getBookmarksKey c.userID] }
    (encode (P.setEntry b.PostID (some b))) rfl (by rw [hu]; exact hset)
  have hrun : c.addBookmark api b = (none, P.setEntry b.PostID (some b),
      { api with
        gets := api.gets ++ [getBookmarksKey c.userID]
        kv := fun k => if k = getBookmarksKey c.userID then
          some (encode (P.setEntry b.PostID (some b))) else api.kv k
        sets := api.sets ++
          [(getBookmarksKey c.userID, encode (P.setEntry b.PostID (some b)))] }) := by
    unfold Bookmarks.addBookmark
    rw [load_of_working_store _ _ hget, hP]
    simp only [Bookmarks.add, hstore, hu]
  rw [hrun]
  have hnotin : b.PostID ∉ P.ByID := by
    rw [← AList.lookup_isSome, hnew]
    simp
  refine ⟨rfl, rfl, ?_, ?_, ?_, by simp⟩
  · show (P.ByID.insert b.PostID (some b)).entries.length = P.ByID.entries.length + 1
    rw [AList.insert_entries_of_neg hnotin]
    rfl
  · simp [Bookmarks.setEntry]
  · intro k hk
    simp [Bookmarks.setEntry, AList.lookup_insert_ne hk]

/-- Witness of C8: the add test.  For `userID1` the persisted collection has no
entries and the result has one; for `userID2` it holds `ID1` and `ID2` and the
result, with `ID3`, has three. -/
theorem addBookmark_new_witness :
    (((NewBookmarksWithUser "userID1").addBookmark apiMock b3).1 = none ∧
      ((NewBookmarksWithUser "userID1").addBookmark apiMock b3).2.2.gets =
        apiMock.gets ++ [getBookmarksKey "userID1"] ∧
      ((NewBookmarksWithUser "userID1").addBookmark apiMock b3).2.1.len = 0 + 1 ∧
      ((NewBookmarksWithUser "userID1").addBookmark apiMock b3).2.1.ByID.lookup b3.PostID =
        some (some b3) ∧
      (∀ k, k ≠ b3.PostID →
        ((NewBookmarksWithUser "userID1").addBookmark apiMock b3).2.1.ByID.lookup k =
          (NewBookmarksWithUser "userID1").ByID.lookup k) ∧
      ((NewBookmarksWithUser "userID1").addBookmark apiMock b3).2.2.kv
          (getBookmarksKey "userID1") =
        some (encode ((NewBookmarksWithUser "userID1").addBookmark apiMock b3).2.1)) ∧
    ((bmarksU2.addBookmark apiTwo b3).1 = none ∧
      (bmarksU2.addBookmark apiTwo b3).2.2.gets = apiTwo.gets ++ [getBookmarksKey "userID2"] ∧
      (bmarksU2.addBookmark apiTwo b3).2.1.len = 2 + 1 ∧
      (bmarksU2.addBookmark apiTwo b3).2.1.ByID.lookup b3.PostID = some (some b3) ∧
      (∀ k, k ≠ b3.PostID →
        (bmarksU2.addBookmark apiTwo b3).2.1.ByID.lookup k = bmarksU2.ByID.lookup k) ∧
      (bmarksU2.addBookmark apiTwo b3).2.2.kv (getBookmarksKey "userID2") =
        some (encode (bmarksU2.addBookmark apiTwo b3).2.1)) :=
  ⟨addBookmark_new (NewBookmarksWithUser "userID1") apiMock b3 (NewBookmarksWithUser "userID1")
      rfl rfl rfl rfl,
   addBookmark_new bmarksU2 apiTwo b3 bmarksU2 rfl rfl rfl rfl⟩

/-- C9, as the code has it: decoding the document produced by encoding a
collection succeeds and gives, under every key, the bookmark of the original
except that a label sequence present with zero elements comes back absent; so
for every collection in which no bookmark has such a label sequence (bookmarks
with an empty Title or absent LabelIDs included) the decoded ByID map is the
original one.  `title` is left out of the encoding when empty, `label_ids` when
absent or of length zero. -/
theorem decode_encode (c : Bookmarks) (u : String) :
    (∃ c', jsonUnmarshal (encode c) (NewBookmarksWithUser u) = .ok c' ∧
      ∀ k, c'.ByID.lookup k = (c.ByID.lookup k).map (Option.map Bookmark.readBack)) ∧
    ((∀ k b, c.ByID.lookup k = some (some b) → b.LabelIDs ≠ some []) →
      ∃ c', jsonUnmarshal (encode c) (NewBookmarksWithUser u) = .ok c' ∧
        ∀ k, c'.ByID.lookup k = c.ByID.lookup k) ∧
    (∀ b : Bookmark,
      (b.Title = "" → (encodeBookmark b).field "title" = none) ∧
      (b.LabelIDs = none ∨ b.LabelIDs = some [] →
        (encodeBookmark b).field "label_ids" = none)) := by
  obtain ⟨c', hdec, -, hl⟩ := jsonUnmarshal_encode c u
  refine ⟨⟨c', hdec, hl⟩, ?_, ?_⟩
  · intro hlabels
    refine ⟨c', hdec, fun k => ?_⟩
    rw [hl]
    cases hk : c.ByID.lookup k with
    | none => rfl
    | some q =>
      cases q with
      | none => rfl
      | some b =>
        have hb := hlabels k b hk
        obtain ⟨pid, title, cr, md, labels⟩ := b
        rcases labels with _ | (_ | ⟨id, ids⟩)
        · rfl
        · exact absurd rfl hb
        · rfl
  · intro b
    obtain ⟨pid, title, cr, md, labels⟩ := b
    constructor
    · intro ht
      simp only at ht
      subst ht
      rcases labels with _ | (_ | ⟨id, ids⟩) <;>
        simp [encodeBookmark, encodeLabelIDs, Json.field, List.lookup]
    · intro hlab
      simp only at hlab
      by_cases ht : title = "" <;>
        rcases hlab with h | h <;> subst h <;>
        simp [encodeBookmark, encodeLabelIDs, Json.field, List.lookup, ht]

/-- Witness of C9: the collection of `userID2` in the tests, in which `ID1` has
no labels and `ID2` has two. -/
theorem decode_encode_witness :
    ∃ c', jsonUnmarshal (encode bmarksU2) (NewBookmarksWithUser "userID2") = .ok c' ∧
      ∀ k, c'.ByID.lookup k = bmarksU2.ByID.lookup k :=
  (decode_encode bmarksU2 "userID2").2.1 (by
    intro k b hk
    have hmem : (⟨k, some b⟩ : (_ : String) × Option Bookmark) ∈ bmarksU2.ByID.entries :=
      AList.mem_lookup_iff.1 hk
    have hent : bmarksU2.ByID.entries = [⟨"ID2", some b2⟩, ⟨"ID1", some b1⟩] := rfl
    rw [hent] at hmem
    simp only [List.mem_cons, Sigma.mk.inj_iff, heq_eq_eq, Option.some.injEq,
      List.mem_singleton, List.not_mem_nil, or_false] at hmem
    rcases hmem with ⟨-, h⟩ | ⟨-, h⟩ <;> subst h <;> decide)

/-- C9 fails as stated: a bookmark whose label sequence is present and has no
elements is encoded without `label_ids` and decoded with a nil label sequence,
so the decoded collection differs from the original under `ID1`. -/
theorem decode_encode_empty_labels :
    bmarksEmptyLabels.get "ID1" = some { PostID := "ID1", LabelIDs := some [] } ∧
    (jsonUnmarshal (encode bmarksEmptyLabels) (NewBookmarksWithUser "userID1")).toOption.map
      (fun c' => c'.get "ID1") = some (some { PostID := "ID1", LabelIDs := none }) ∧
    (jsonUnmarshal (encode bmarksEmptyLabels) (NewBookmarksWithUser "userID1")).toOption.map
      (fun c' => c'.get "ID1") ≠ some (bmarksEmptyLabels.get "ID1") := by
  refine ⟨by decide, by decide, by decide⟩

/-- C10: `add b` returns an error exactly when encoding the collection fails or
the `KVSet` call of the store fails; the error returned is then the underlying
error (of the encoder, or of the store) wrapped with the note failed to add
bookmark, its message being that note, a colon and a blank, and the underlying
message; and the document persisted under every key is the one persisted before
the call. -/
theorem add_error_iff (marshal : Marshal) (c : Bookmarks) (api : API) (b : Bookmark) :
    ((c.add marshal api b).1 ≠ none ↔
      (∃ jsonErr, marshal (c.setEntry b.PostID (some b)) = .error jsonErr) ∨
      (∃ doc appErr, marshal (c.setEntry b.PostID (some b)) = .ok doc ∧
        api.setErr api.sets.length (getBookmarksKey c.userID) doc = some appErr)) ∧
    (∀ err, (c.add marshal api b).1 = some err →
      (∃ cause,
        ((marshal (c.setEntry b.PostID (some b)) = .error cause) ∨
          (∃ doc, marshal (c.setEntry b.PostID (some b)) = .ok doc ∧
            api.setErr api.sets.length (getBookmarksKey c.userID) doc = some cause)) ∧
        err = .wrap cause "failed to add bookmark" ∧
        err.Error = "failed to add bookmark: " ++ cause.Error) ∧
      ∀ k, (c.add marshal api b).2.2.kv k = api.kv k) := by
  cases hm : marshal (c.setEntry b.PostID (some b)) with
  | error jsonErr =>
    have hadd : c.add marshal api b =
        (some (.wrap jsonErr "failed to add bookmark"), c.setEntry b.PostID (some b), api) := by
      simp [Bookmarks.add, Bookmarks.storeBookmarks, hm]
    rw [hadd]
    refine ⟨⟨fun _ => Or.inl ⟨jsonErr, rfl⟩, fun _ => by simp⟩, ?_⟩
    intro err herr
    cases herr
    exact ⟨⟨jsonErr, Or.inl rfl, rfl, rfl⟩, fun _ => rfl⟩
  | ok doc =>
    have hkey : getBookmarksKey (c.setEntry b.PostID (some b)).userID =
        getBookmarksKey c.userID := rfl
    cases hs : api.setErr api.sets.length (getBookmarksKey c.userID) doc with
    | some appErr =>
      have hadd : c.add marshal api b =
          (some (.wrap appErr "failed to add bookmark"), c.setEntry b.PostID (some b),
            { api with sets := api.sets ++ [(getBookmarksKey c.userID, doc)] }) := by
        simp [Bookmarks.add, Bookmarks.storeBookmarks, hm, API.KVSet, hkey, hs]
      rw [hadd]
      refine ⟨⟨fun _ => Or.inr ⟨doc, appErr, rfl, hs⟩, fun _ => by simp⟩, ?_⟩
      intro err herr
      cases herr
      exact ⟨⟨appErr, Or.inr ⟨doc, rfl, hs⟩, rfl, rfl⟩, fun _ => rfl⟩
    | none =>
      have hadd : (c.add marshal api b).1 = none := by
        simp [Bookmarks.add, Bookmarks.storeBookmarks, hm, API.KVSet, hkey, hs]
      rw [hadd]
      refine ⟨⟨fun h => absurd rfl h, ?_⟩, ?_⟩
      · rintro (⟨e, he⟩ | ⟨d, e, hd, he⟩)
        · cases he
        · cases hd
          rw [hs] at he
          cases he
      · intro err herr
        cases herr

/-- Witness of C10: `add` of `ID1` for `userID1` against a store whose `KVSet`
fails. -/
theorem add_error_iff_witness :
    ((∃ jsonErr, jsonMarshal ((NewBookmarksWithUser "userID1").setEntry b1.PostID (some b1)) =
        .error jsonErr) ∨
      (∃ doc appErr,
        jsonMarshal ((NewBookmarksWithUser "userID1").setEntry b1.PostID (some b1)) = .ok doc ∧
        apiSetFails.setErr apiSetFails.sets.length (getBookmarksKey "userID1") doc =
          some appErr)) ∧
    ((∃ cause,
        ((jsonMarshal ((NewBookmarksWithUser "userID1").setEntry b1.PostID (some b1)) =
            .error cause) ∨
          (∃ doc,
            jsonMarshal ((NewBookmarksWithUser "userID1").setEntry b1.PostID (some b1)) =
              .ok doc ∧
            apiSetFails.setErr apiSetFails.sets.length (getBookmarksKey "userID1") doc =
              some cause)) ∧
        Error.wrap (.msg "KVSet: store unavailable") "failed to add bookmark" =
          .wrap cause "failed to add bookmark" ∧
        (Error.wrap (.msg "KVSet: store unavailable") "failed to add bookmark").Error =
          "failed to add bookmark: " ++ cause.Error) ∧
      ∀ k, ((NewBookmarksWithUser "userID1").add jsonMarshal apiSetFails b1).2.2.kv k =
        apiSetFails.kv k) :=
  ⟨(add_error_iff jsonMarshal (NewBookmarksWithUser "userID1") apiSetFails b1).1.1 (by decide),
   (add_error_iff jsonMarshal (NewBookmarksWithUser "userID1") apiSetFails b1).2 _ rfl⟩

/-- C11, as the code has it: when persistence fails during `add b`, the
in-memory mutation is kept: after the failed call `get b.PostID` is `b` (a new
`b` is present, an overwritten entry has the value of `b`), every other key is
as before, and only the persisted documents are what they were before the
call. -/
theorem add_failed_keeps_mutation (marshal : Marshal) (c : Bookmarks) (api : API)
    (b : Bookmark) (hfail : (c.add marshal api b).1 ≠ none) :
    (c.add marshal api b).2.1.get b.PostID = some b ∧
    (∀ k, k ≠ b.PostID → (c.add marshal api b).2.1.get k = c.get k) ∧
    ∀ k, (c.add marshal api b).2.2.kv k = api.kv k := by
  rw [add_collection, add_store]
  refine ⟨get_setEntry_self _ _ _, fun k hk => get_setEntry_ne _ hk _, ?_⟩
  have herr : ((c.setEntry b.PostID (some b)).storeBookmarks marshal api).1 ≠ none :=
    fun h => hfail ((add_eq_none_iff marshal c api b).2 h)
  exact storeBookmarks_kv_of_error marshal _ api herr

/-- Witness of C11 as amended: `add` of `ID1` on the empty collection of
`userID1` against a store whose `KVSet` fails. -/
theorem add_failed_keeps_mutation_witness :
    ((NewBookmarksWithUser "userID1").add jsonMarshal apiSetFails b1).2.1.get b1.PostID =
      some b1 ∧
    (∀ k, k ≠ b1.PostID →
      ((NewBookmarksWithUser "userID1").add jsonMarshal apiSetFails b1).2.1.get k =
        (NewBookmarksWithUser "userID1").get k) ∧
    ∀ k, ((NewBookmarksWithUser "userID1").add jsonMarshal apiSetFails b1).2.2.kv k =
      apiSetFails.kv k :=
  add_failed_keeps_mutation jsonMarshal (NewBookmarksWithUser "userID1") apiSetFails b1
    (by decide)

/-- C11 fails as stated: `add` of `ID1` on the empty collection fails when
`KVSet` fails, `get` of `ID1` was absent before the call, and is the bookmark
after it. -/
theorem add_failed_not_rolled_back :
    ((NewBookmarksWithUser "userID1").add jsonMarshal apiSetFails b1).1 =
      some (.wrap (.msg "KVSet: store unavailable") "failed to add bookmark") ∧
    (NewBookmarksWithUser "userID1").get "ID1" = none ∧
    ((NewBookmarksWithUser "userID1").add jsonMarshal apiSetFails b1).2.1.get "ID1" =
      some b1 ∧
    ((NewBookmarksWithUser "userID1").add jsonMarshal apiSetFails b1).2.1.get "ID1" ≠
      (NewBookmarksWithUser "userID1").get "ID1" := by
  refine ⟨by decide, by decide, by decide, by decide⟩

/-- C12: `add` never reads the store (the reads recorded are those made before),
so when two collection instances for the same user are both created empty, the
first performs `add a` and then the second performs `add b`, with different
PostIDs and both succeeding, the document persisted for the user after the first
call holds `a`, and the document finally persisted is the encoding of the
collection that holds `b` only: read back, it has `b` under `b.PostID` and
nothing under any other key, `a.PostID` included. -/
theorem add_from_empty_overwrites (u : String) (api : API) (a b : Bookmark)
    (hne : a.PostID ≠ b.PostID)
    (h₁ : (addFromTwoInstances u api a b).1 = none)
    (h₂ : (addFromTwoInstances u api a b).2.1 = none) :
    (addFromTwoInstances u api a b).2.2.gets = api.gets ∧
    ((NewBookmarksWithUser u).add jsonMarshal api a).2.2.kv (getBookmarksKey u) =
      some (encode ((NewBookmarksWithUser u).setEntry a.PostID (some a))) ∧
    (addFromTwoInstances u api a b).2.2.kv (getBookmarksKey u) =
      some (encode ((NewBookmarksWithUser u).setEntry b.PostID (some b))) ∧
    ∃ P, persisted (addFromTwoInstances u api a b).2.2 u = .ok P ∧
      P.ByID.lookup a.PostID = none ∧
      P.ByID.lookup b.PostID = some (some b.readBack) ∧
      ∀ k, k ≠ b.PostID → P.ByID.lookup k = none := by
  have hfirst : ((NewBookmarksWithUser u).add jsonMarshal api a).1 = none := h₁
  have hsecond : ((NewBookmarksWithUser u).add jsonMarshal
      ((NewBookmarksWithUser u).add jsonMarshal api a).2.2 b).1 = none := h₂
  have hapi : (addFromTwoInstances u api a b).2.2 = ((NewBookmarksWithUser u).add jsonMarshal
      ((NewBookmarksWithUser u).add jsonMarshal api a).2.2 b).2.2 := rfl
  rw [hapi]
  rw [add_eq_none_iff] at hfirst hsecond
  obtain ⟨doc₁, hdoc₁, hset₁⟩ := storeBookmarks_eq_none _ _ _ hfirst
  obtain ⟨doc₂, hdoc₂, hset₂⟩ := storeBookmarks_eq_none _ _ _ hsecond
  cases hdoc₁
  cases hdoc₂
  have hkv₂ : ((NewBookmarksWithUser u).add jsonMarshal
      ((NewBookmarksWithUser u).add jsonMarshal api a).2.2 b).2.2.kv (getBookmarksKey u) =
      some (encode ((NewBookmarksWithUser u).setEntry b.PostID (some b))) := by
    rw [add_store _ _ _ b, storeBookmarks_ok jsonMarshal _ _ _ rfl hset₂]
    simp [Bookmarks.setEntry, NewBookmarksWithUser]
  refine ⟨?_, ?_, hkv₂, ?_⟩
  · rw [add_store, storeBookmarks_gets, add_store, storeBookmarks_gets]
  · rw [add_store, storeBookmarks_ok jsonMarshal _ _ _ rfl hset₁]
    simp [Bookmarks.setEntry, NewBookmarksWithUser]
  · obtain ⟨P, hdec, -, hl⟩ :=
      jsonUnmarshal_encode ((NewBookmarksWithUser u).setEntry b.PostID (some b)) u
    refine ⟨P, ?_, ?_, ?_, ?_⟩
    · unfold persisted
      rw [hkv₂]
      exact hdec
    · rw [hl]
      show Option.map _ (AList.lookup a.PostID ((∅ : ByIDMap).insert b.PostID (some b))) = none
      rw [AList.lookup_insert_ne hne, AList.lookup_empty]
      rfl
    · rw [hl]
      show Option.map _ (AList.lookup b.PostID ((∅ : ByIDMap).insert b.PostID (some b))) = _
      rw [AList.lookup_insert]
      rfl
    · intro k hk
      rw [hl]
      show Option.map _ (AList.lookup k ((∅ : ByIDMap).insert b.PostID (some b))) = none
      rw [AList.lookup_insert_ne hk, AList.lookup_empty]
      rfl

/-- Witness of C12: two instances for `userID1` against the mocked store; the
first adds `ID1`, the second adds `ID2`. -/
theorem add_from_empty_overwrites_witness :
    (addFromTwoInstances "userID1" apiMock b1 b2).2.2.gets = apiMock.gets ∧
    ((NewBookmarksWithUser "userID1").add jsonMarshal apiMock b1).2.2.kv
        (getBookmarksKey "userID1") =
      some (encode ((NewBookmarksWithUser "userID1").setEntry b1.PostID (some b1))) ∧
    (addFromTwoInstances "userID1" apiMock b1 b2).2.2.kv (getBookmarksKey "userID1") =
      some (encode ((NewBookmarksWithUser "userID1").setEntry b2.PostID (some b2))) ∧
    ∃ P, persisted (addFromTwoInstances "userID1" apiMock b1 b2).2.2 "userID1" = .ok P ∧
      P.ByID.lookup b1.PostID = none ∧
      P.ByID.lookup b2.PostID = some (some b2.readBack) ∧
      ∀ k, k ≠ b2.PostID → P.ByID.lookup k = none :=
  add_from_empty_overwrites "userID1" apiMock b1 b2 (by decide) rfl rfl

/-- C13: `delete id` leaves `id` absent from the in-memory map (`get id` is
absent and `exists id` reports not found), leaves every other entry as it was,
and changes nothing when `id` was already absent; it makes no call to the store
(it neither takes nor returns the state of the store) and keeps the user, so the
document persisted for the collection is the same before and after. -/
theorem delete_in_memory_only (c : Bookmarks) (id : String) :
    (c.delete id).get id = none ∧
    (c.delete id).exists id = (none, false) ∧
    (∀ k, k ≠ id → (c.delete id).ByID.lookup k = c.ByID.lookup k) ∧
    (c.ByID.lookup id = none → c.delete id = c) ∧
    (c.delete id).userID = c.userID ∧
    ∀ api : API, persisted api (c.delete id).userID = persisted api c.userID := by
  refine ⟨?_, ?_, ?_, ?_, rfl, fun _ => rfl⟩
  · simp [Bookmarks.delete, Bookmarks.get]
  · simp [Bookmarks.delete, Bookmarks.exists]
  · intro k hk
    simp [Bookmarks.delete, AList.lookup_erase_ne hk]
  · intro habs
    have hnot : id ∉ c.ByID.keys := by
      rw [← AList.mem_keys]
      exact AList.lookup_eq_none.1 habs
    obtain ⟨m, u⟩ := c
    simp only [Bookmarks.delete]
    congr 1
    apply AList.ext
    simp only [AList.erase]
    exact List.kerase_of_not_mem_keys hnot

/-- Witness of C13: deleting `ID3`, which the collection of `userID2` does not
hold. -/
theorem delete_in_memory_only_witness : bmarksU2.delete "ID3" = bmarksU2 :=
  (delete_in_memory_only bmarksU2 "ID3").2.2.2.1 (by decide)

/-- C14: the mapping from a user to the storage key `bookmarks_` followed by
the user is collision-free, and for two distinct users an `add` or a
`storeBookmarks` on a collection bound to the first leaves the document stored
under the key of the second as it was. -/
theorem keys_of_users_independent (marshal : Marshal) (c : Bookmarks) (api : API)
    (b : Bookmark) (u₁ u₂ : String) :
    ("bookmarks_" ++ u₁ = "bookmarks_" ++ u₂ → u₁ = u₂) ∧
    (u₁ ≠ u₂ → getBookmarksKey u₁ ≠ getBookmarksKey u₂) ∧
    (c.userID ≠ u₂ →
      (c.add marshal api b).2.2.kv ("bookmarks_" ++ u₂) = api.kv ("bookmarks_" ++ u₂) ∧
      (c.storeBookmarks marshal api).2.kv ("bookmarks_" ++ u₂) =
        api.kv ("bookmarks_" ++ u₂)) := by
  refine ⟨getBookmarksKey_injective u₁ u₂, fun h hk => h (getBookmarksKey_injective _ _ hk), ?_⟩
  intro hu
  have hk : getBookmarksKey u₂ ≠ getBookmarksKey c.userID :=
    fun h => hu (getBookmarksKey_injective _ _ h).symm
  constructor
  · rw [add_store]
    exact storeBookmarks_kv_of_ne marshal _ api _ hk
  · exact storeBookmarks_kv_of_ne marshal c api _ hk

/-- Witness of C14: `add` of `ID3` for `userID1` against the store that holds the
document of `userID2`. -/
theorem keys_of_users_independent_witness :
    "userID1" = "userID1" ∧
    getBookmarksKey "userID1" ≠ getBookmarksKey "userID2" ∧
    ((NewBookmarksWithUser "userID1").add jsonMarshal apiTwo b3).2.2.kv
        ("bookmarks_" ++ "userID2") = apiTwo.kv ("bookmarks_" ++ "userID2") ∧
    ((NewBookmarksWithUser "userID1").storeBookmarks jsonMarshal apiTwo).2.kv
        ("bookmarks_" ++ "userID2") = apiTwo.kv ("bookmarks_" ++ "userID2") :=
  have h := keys_of_users_independent jsonMarshal (NewBookmarksWithUser "userID1") apiTwo b3
    "userID1" "userID2"
  ⟨(keys_of_users_independent jsonMarshal (NewBookmarksWithUser "userID1") apiTwo b3
      "userID1" "userID1").1 rfl,
    h.2.1 (by decide), h.2.2 (by decide)⟩

/-- C15, as the code has it: only a failure of `getBookmarks` is answered with a
text that does not depend on the error (two runs that differ in the error, or in
any other collaborator, answer alike: unable to retrieve bookmarks for the
user).  A failure of `getBookmark` or of `getBmarkLabelNames` whose message holds
no per-cent sign is answered with the message of the error itself, and a failure
of `getBmarkTextDetailed` with the words unable to get bookmark text followed by
the message of the error. -/
theorem view_failure_responses (p : Plugin) (args : CommandArgs) :
    (∀ (q : Plugin) (e e' : Error),
      p.getBookmarks args.UserId = .error e → q.getBookmarks args.UserId = .error e' →
      (p.executeCommandView args).1 = "Unable to retrieve bookmarks for user " ++ args.UserId ∧
      (q.executeCommandView args).1 = (p.executeCommandView args).1) ∧
    (∀ bmarks, p.getBookmarks args.UserId = .ok (some bmarks) → bmarks.len ≠ 0 →
      (Fields args.Command).length = 3 →
      (∀ e, p.getBookmark bmarks (p.getPostIDFromLink ((Fields args.Command).getD 2 "")) =
          .error e →
        '%' ∉ e.Error.data →
        (p.executeCommandView args).1 = e.Error) ∧
      (∀ bmark e,
        p.getBookmark bmarks (p.getPostIDFromLink ((Fields args.Command).getD 2 "")) =
          .ok bmark →
        p.getBmarkLabelNames bmarks bmark = .error e →
        '%' ∉ e.Error.data →
        (p.executeCommandView args).1 = e.Error) ∧
      (∀ bmark labelNames e,
        p.getBookmark bmarks (p.getPostIDFromLink ((Fields args.Command).getD 2 "")) =
          .ok bmark →
        p.getBmarkLabelNames bmarks bmark = .ok labelNames →
        p.getBmarkTextDetailed bmark labelNames args = .error e →
        (p.executeCommandView args).1 = "Unable to get bookmark text " ++ e.Error)) := by
  constructor
  · intro q e e' hp hq
    simp [Plugin.executeCommandView, hp, hq, Plugin.responsefOperand]
  · intro bmarks hb hlen hthree
    refine ⟨?_, ?_, ?_⟩
    · intro e he hpc
      rw [executeCommandView_of_getBookmark_error p args bmarks e hb hlen hthree he,
        Sprintf_of_no_percent _ hpc]
    · intro bmark e hbm he hpc
      rw [executeCommandView_of_getBmarkLabelNames_error p args bmarks bmark e hb hlen hthree
        hbm he, Sprintf_of_no_percent _ hpc]
    · intro bmark labelNames e hbm hnames he
      simp only [Plugin.executeCommandView, hb, if_neg hlen, hthree, ↓reduceIte, hbm, hnames,
        he, Plugin.responsefOperand]

/-- Witness of C15 as amended: `getBookmarks` fails in two runs with different
errors; and, for a user with one bookmark, `getBookmark`, `getBmarkLabelNames`
and `getBmarkTextDetailed` fail in turn. -/
theorem view_failure_responses_witness :
    ((({ pluginNoBookmarks with getBookmarks := fun _ => .error (.msg "KVGet: timeout") } :
          Plugin).executeCommandView viewOne).1 =
        "Unable to retrieve bookmarks for user " ++ viewOne.UserId ∧
      (({ pluginNoBookmarks with getBookmarks := fun _ => .error (.msg "invalid character") } :
          Plugin).executeCommandView viewOne).1 =
        (({ pluginNoBookmarks with getBookmarks := fun _ => .error (.msg "KVGet: timeout") } :
          Plugin).executeCommandView viewOne).1) ∧
    ((pluginGetBookmarkFails (.msg "KVGet: timeout")).executeCommandView viewOne).1 =
      (Error.msg "KVGet: timeout").Error ∧
    ((pluginLabelNamesFail (.msg "KVGet: timeout")).executeCommandView viewOne).1 =
      (Error.msg "KVGet: timeout").Error ∧
    ((pluginTextFails (.msg "KVGet: timeout")).executeCommandView viewOne).1 =
      "Unable to get bookmark text " ++ (Error.msg "KVGet: timeout").Error :=
  ⟨(view_failure_responses
      { pluginNoBookmarks with getBookmarks := fun _ => .error (.msg "KVGet: timeout") } viewOne).1
      { pluginNoBookmarks with getBookmarks := fun _ => .error (.msg "invalid character") }
      (.msg "KVGet: timeout") (.msg "invalid character") rfl rfl,
   ((view_failure_responses (pluginGetBookmarkFails (.msg "KVGet: timeout")) viewOne).2
      ((NewBookmarksWithUser "userID1").setEntry "ID1" (some b1)) rfl (by decide)
      (by decide)).1 (.msg "KVGet: timeout") rfl (by decide),
   ((view_failure_responses (pluginLabelNamesFail (.msg "KVGet: timeout")) viewOne).2
      ((NewBookmarksWithUser "userID1").setEntry "ID1" (some b1)) rfl (by decide)
      (by decide)).2.1 (some b1) (.msg "KVGet: timeout") rfl rfl (by decide),
   ((view_failure_responses (pluginTextFails (.msg "KVGet: timeout")) viewOne).2
      ((NewBookmarksWithUser "userID1").setEntry "ID1" (some b1)) rfl (by decide)
      (by decide)).2.2 (some b1) [] (.msg "KVGet: timeout") rfl rfl rfl⟩

/-- C15 fails as stated: two runs of the view of one bookmark that differ only
in the text of the error `getBookmark` returns answer with different texts,
each the text of its error. -/
theorem view_response_shows_error_text :
    ((pluginGetBookmarkFails (.msg "KVGet: timeout")).executeCommandView viewOne).1 =
      "KVGet: timeout" ∧
    ((pluginGetBookmarkFails (.msg "invalid character")).executeCommandView viewOne).1 =
      "invalid character" ∧
    ((pluginGetBookmarkFails (.msg "KVGet: timeout")).executeCommandView viewOne).1 ≠
      ((pluginGetBookmarkFails (.msg "invalid character")).executeCommandView viewOne).1 := by
  refine ⟨by decide, by decide, by decide⟩

/-- C16, as the code has it: `hasLabels x` is true exactly when the label
sequence of `x` is not nil; so it is true for a sequence with at least one label
ID, false for the nil sequence, and true for a sequence that is present with
zero elements. -/
theorem hasLabels_iff_not_nil (r : Option Bookmark) (x : Bookmark) :
    (Bookmark.hasLabels r x = true ↔ x.LabelIDs ≠ none) ∧
    (∀ id ids, x.LabelIDs = some (id :: ids) → Bookmark.hasLabels r x = true) ∧
    (x.LabelIDs = none → Bookmark.hasLabels r x = false) ∧
    (x.LabelIDs = some [] → Bookmark.hasLabels r x = true) := by
  obtain ⟨pid, title, cr, md, labels⟩ := x
  cases labels with
  | none => simp [Bookmark.hasLabels, Bookmark.getLabelIDs]
  | some ids => simp [Bookmark.hasLabels, Bookmark.getLabelIDs]

/-- Witness of C16 as amended: the bookmark `ID2` of the tests, with two labels,
`ID1` with the nil sequence, and a bookmark whose sequence is present and
empty. -/
theorem hasLabels_iff_not_nil_witness :
    Bookmark.hasLabels none b2 = true ∧
    Bookmark.hasLabels none b1 = false ∧
    Bookmark.hasLabels none { PostID := "ID1", LabelIDs := some [] } = true :=
  ⟨(hasLabels_iff_not_nil none b2).2.1 "UUID1" ["UUID2"] rfl,
   (hasLabels_iff_not_nil none b1).2.2.1 rfl,
   (hasLabels_iff_not_nil none { PostID := "ID1", LabelIDs := some [] }).2.2.2 rfl⟩

/-- C16 fails as stated: for a bookmark whose label sequence is present and has
zero elements `hasLabels` is true. -/
theorem hasLabels_of_empty_slice :
    (({ PostID := "ID1", LabelIDs := some [] } : Bookmark).LabelIDs.map List.length) = some 0 ∧
    Bookmark.hasLabels none { PostID := "ID1", LabelIDs := some [] } = true := by
  refine ⟨by decide, by decide⟩

/-- C17: whatever the command and its words, a request to view one post
included, when `getBookmarks` succeeds and returns nil or a collection with no
entries, the response is exactly the text that the user has no saved bookmarks,
and the only collaborator called is `getBookmarks`: neither `getBookmark` nor a
text formatter is called. -/
theorem view_without_bookmarks (p : Plugin) (args : CommandArgs) (bmarks : Option Bookmarks)
    (hget : p.getBookmarks args.UserId = .ok bmarks)
    (hnone : bmarks = none ∨ ∃ c, bmarks = some c ∧ c.len = 0) :
    p.executeCommandView args =
      ("You do not have any saved bookmarks", [.getBookmarks args.UserId]) := by
  have htext : Sprintf "You do not have any saved bookmarks" =
      "You do not have any saved bookmarks" := by decide
  rcases hnone with h | ⟨c, h, hlen⟩
  · subst h
    simp [Plugin.executeCommandView, hget, Plugin.responsef, htext]
  · subst h
    simp [Plugin.executeCommandView, hget, hlen, Plugin.responsef, htext]

/-- Witness of C17: a request to view the post `ID1` by a user whose collection
has no entries. -/
theorem view_without_bookmarks_witness :
    pluginNoBookmarks.executeCommandView viewOne =
      ("You do not have any saved bookmarks", [.getBookmarks viewOne.UserId]) :=
  view_without_bookmarks pluginNoBookmarks viewOne (some (NewBookmarksWithUser "userID1")) rfl
    (Or.inr ⟨_, rfl, rfl⟩)

/-- C18: `updateTimes id` and `updateLabels b` dereference the bookmark they look
up without a check.  When the id (for `updateLabels`, `b.PostID`) is a key of the
collection mapped to a bookmark that is not nil, both return normally; when the
id is not in the collection the lookup yields the nil pointer and the operation
panics with a nil dereference instead of returning a bookmark. -/
theorem update_panics_iff_absent (c : Bookmarks) (clk : Clock) (id : String) (b : Bookmark) :
    (∀ bm, c.ByID.lookup id = some (some bm) → ∃ r, c.updateTimes clk id = .ok r) ∧
    (∀ bm, c.ByID.lookup b.PostID = some (some bm) → ∃ r, c.updateLabels b = .ok r) ∧
    (c.ByID.lookup id = none →
      c.get id = none ∧ c.updateTimes clk id = .error .nilDereference) ∧
    (c.ByID.lookup b.PostID = none →
      c.get b.PostID = none ∧ c.updateLabels b = .error .nilDereference) := by
  refine ⟨?_, ?_, ?_, ?_⟩
  · intro bm hbm
    have hget : c.get id = some bm := by simp [Bookmarks.get, hbm]
    by_cases hz : bm.CreateAt = 0
    · exact ⟨_, updateTimes_of_zero c clk id bm hget hz⟩
    · exact ⟨_, updateTimes_of_nonzero c clk id bm hget hz⟩
  · intro bm hbm
    have hget : c.get b.PostID = some bm := by simp [Bookmarks.get, hbm]
    exact ⟨(b, c.setEntry b.PostID (some (bm.addLabelIDs b.getLabelIDs))),
      by simp [Bookmarks.updateLabels, hget]⟩
  · intro habs
    have hget : c.get id = none := by simp [Bookmarks.get, habs]
    exact ⟨hget, by simp [Bookmarks.updateTimes, hget]⟩
  · intro habs
    have hget : c.get b.PostID = none := by simp [Bookmarks.get, habs]
    exact ⟨hget, by simp [Bookmarks.updateLabels, hget]⟩

/-- Witness of C18: in the collection of `userID2`, `ID2` is present and `ID3` is
not. -/
theorem update_panics_iff_absent_witness :
    (∃ r, bmarksU2.updateTimes tickingClock "ID2" = .ok r) ∧
    (∃ r, bmarksU2.updateLabels b2 = .ok r) ∧
    (bmarksU2.get "ID3" = none ∧
      bmarksU2.updateTimes tickingClock "ID3" = .error .nilDereference) ∧
    (bmarksU2.get b3.PostID = none ∧ bmarksU2.updateLabels b3 = .error .nilDereference) :=
  ⟨(update_panics_iff_absent bmarksU2 tickingClock "ID2" b2).1 b2 (by decide),
   (update_panics_iff_absent bmarksU2 tickingClock "ID2" b2).2.1 b2 (by decide),
   (update_panics_iff_absent bmarksU2 tickingClock "ID3" b3).2.2.1 (by decide),
   (update_panics_iff_absent bmarksU2 tickingClock "ID3" b3).2.2.2 (by decide)⟩

/-- C19, as the code has it: with a clock whose successive readings are
non-decreasing and positive, for every bookmark whose `CreateAt` is zero, or is
positive and at most the current reading, `updateTimes` yields a bookmark with
`0 < CreateAt` and `CreateAt ≤ ModifiedAt`, and the stored bookmark has that
ordering after every further call. -/
theorem updateTimes_orders_times (c : Bookmarks) (clk : Clock) (id : String) (bm : Bookmark)
    (hget : c.get id = some bm)
    (hmono : ∀ n, clk n ≤ clk (n + 1)) (hpos : ∀ n, 0 < clk n)
    (hbm : bm.CreateAt = 0 ∨ (0 < bm.CreateAt ∧ bm.CreateAt ≤ clk 0)) :
    (∃ bm' c' clk', c.updateTimes clk id = .ok (bm', c', clk') ∧
      0 < bm'.CreateAt ∧ bm'.CreateAt ≤ bm'.ModifiedAt) ∧
    ∀ n, ∃ c' clk' bm', updateTimesN id (n + 1) c clk = .ok (c', clk') ∧
      c'.get id = some bm' ∧ 0 < bm'.CreateAt ∧ bm'.CreateAt ≤ bm'.ModifiedAt := by
  rcases hbm with hzero | ⟨hgt, hle⟩
  · constructor
    · exact ⟨_, _, _, updateTimes_of_zero c clk id bm hget hzero, hpos 0, hmono 0⟩
    · intro n
      obtain ⟨c', hrun, hget'⟩ :=
        updateTimesN_of_zero id c clk bm hget hzero (ne_of_gt (hpos 0)) n
      exact ⟨c', _, _, hrun, hget', hpos 0, clock_le_of_nondecreasing clk hmono (n + 1)⟩
  · have hne : bm.CreateAt ≠ 0 := ne_of_gt hgt
    constructor
    · exact ⟨_, _, _, updateTimes_of_nonzero c clk id bm hget hne, hgt, hle⟩
    · intro n
      obtain ⟨c', hrun, hget'⟩ := updateTimesN_of_nonzero id n c clk bm hget hne
      exact ⟨c', _, _, hrun, hget', hgt,
        le_trans hle (clock_le_of_nondecreasing clk hmono n)⟩

/-- Witness of C19 as amended: the bookmark `ID1` of the tests, with `CreateAt`
zero, under the clock that reads 1000, 1001, 1002 and so on. -/
theorem updateTimes_orders_times_witness :
    (∃ bm' c' clk',
      ((NewBookmarksWithUser "userID1").setEntry "ID1" (some b1)).updateTimes tickingClock "ID1" =
        .ok (bm', c', clk') ∧
      0 < bm'.CreateAt ∧ bm'.CreateAt ≤ bm'.ModifiedAt) ∧
    ∀ n, ∃ c' clk' bm',
      updateTimesN "ID1" (n + 1) ((NewBookmarksWithUser "userID1").setEntry "ID1" (some b1))
        tickingClock = .ok (c', clk') ∧
      c'.get "ID1" = some bm' ∧ 0 < bm'.CreateAt ∧ bm'.CreateAt ≤ bm'.ModifiedAt :=
  updateTimes_orders_times ((NewBookmarksWithUser "userID1").setEntry "ID1" (some b1))
    tickingClock "ID1" b1 (by decide)
    (fun n => by simp only [tickingClock]; omega)
    (fun n => by simp only [tickingClock]; omega)
    (Or.inl rfl)

/-- C19 fails as stated: the clock that reads 1000, 1001 and so on is
non-decreasing and positive, a `CreateAt` of -5 is at most the current reading,
and `updateTimes` leaves it at -5, which is not positive. -/
theorem updateTimes_negative_CreateAt :
    (∀ n, tickingClock n ≤ tickingClock (n + 1)) ∧
    (∀ n, 0 < tickingClock n) ∧
    ({ b1 with CreateAt := -5 } : Bookmark).CreateAt ≤ tickingClock 0 ∧
    (((NewBookmarksWithUser "userID1").setEntry "ID1"
        (some { b1 with CreateAt := -5 })).updateTimes tickingClock "ID1").toOption.map
      (fun r => r.1.CreateAt) = some (-5) ∧
    ¬ (0 : Int) < -5 := by
  refine ⟨fun n => ?_, fun n => ?_, by decide, ?_, by decide⟩
  · simp only [tickingClock]; omega
  · simp only [tickingClock]; omega
  · rw [updateTimes_of_nonzero _ tickingClock "ID1" { b1 with CreateAt := -5 } (by decide)
      (by decide)]
    rfl

/-- C20, as the code has it: when the collection holds a bookmark under `p` and
the incoming `b'` has PostID `p`, `updateLabels b'` changes only the LabelIDs of
the bookmark stored under `p`: its PostID, Title, CreateAt and ModifiedAt are as
before.  Every other bookmark in memory is as before, so every entry of the
collection that does not hold the pointer stored under `p` is unchanged, while an
entry under another key that holds that same pointer shows the new LabelIDs.
The map is not touched and no call is made to the store, which is returned as it
was; the value returned is the incoming pointer itself, not the stored one. -/
theorem updateLabels_changes_labels_only (r : BookmarksRef) (heap : Heap) (api : API)
    (p : String) (q bmark : Nat)
    (hq : r.ByID.lookup p = some (some q)) (hp : (heap bmark).PostID = p) :
    ∃ heap', r.updateLabels heap api bmark = .ok (bmark, heap', api) ∧
      (heap' q).PostID = (heap q).PostID ∧ (heap' q).Title = (heap q).Title ∧
      (heap' q).CreateAt = (heap q).CreateAt ∧ (heap' q).ModifiedAt = (heap q).ModifiedAt ∧
      (heap' q).LabelIDs = (heap bmark).LabelIDs ∧
      (∀ a, a ≠ q → heap' a = heap a) ∧
      (∀ k, r.ByID.lookup k ≠ some (some q) → r.entry heap' k = r.entry heap k) ∧
      (∀ k, r.ByID.lookup k = some (some q) →
        r.entry heap' k = some (some { heap q with LabelIDs := (heap bmark).LabelIDs })) := by
  subst hp
  refine ⟨Function.update heap q ((heap q).addLabelIDs (heap bmark).getLabelIDs),
    updateLabels_ref r heap api q bmark hq, ?_, ?_, ?_, ?_, ?_, ?_, ?_, ?_⟩
  · simp [Bookmark.addLabelIDs]
  · simp [Bookmark.addLabelIDs]
  · simp [Bookmark.addLabelIDs]
  · simp [Bookmark.addLabelIDs]
  · simp [Bookmark.addLabelIDs, Bookmark.getLabelIDs]
  · intro a ha
    exact Function.update_noteq ha _ _
  · intro k hk
    exact entry_update_of_not_held r heap q _ k hk
  · intro k hk
    exact entry_update_of_held r heap q _ k hk

/-- Witness of C20 as amended: the collection of `userID2` with `ID1` and `ID2` at
two addresses; the incoming bookmark for `ID2`, at address 3, has another title,
a timestamp and one label. -/
theorem updateLabels_changes_labels_only_witness :
    ∃ heap', bmarksRefU2.updateLabels heapU2 apiMock 3 = .ok (3, heap', apiMock) ∧
      (heap' 2).PostID = (heapU2 2).PostID ∧ (heap' 2).Title = (heapU2 2).Title ∧
      (heap' 2).CreateAt = (heapU2 2).CreateAt ∧
      (heap' 2).ModifiedAt = (heapU2 2).ModifiedAt ∧
      (heap' 2).LabelIDs = (heapU2 3).LabelIDs ∧
      (∀ a, a ≠ 2 → heap' a = heapU2 a) ∧
      (∀ k, bmarksRefU2.ByID.lookup k ≠ some (some 2) →
        bmarksRefU2.entry heap' k = bmarksRefU2.entry heapU2 k) ∧
      (∀ k, bmarksRefU2.ByID.lookup k = some (some 2) →
        bmarksRefU2.entry heap' k =
          some (some { heapU2 2 with LabelIDs := (heapU2 3).LabelIDs })) :=
  updateLabels_changes_labels_only bmarksRefU2 heapU2 apiMock "ID2" 2 3 (by decide) rfl

/-- C20 fails as stated: in a collection whose keys `A` and `B` hold the same
pointer, `updateLabels` of an incoming bookmark for `A` with the label `X`
changes the entry under the other key `B` too, from no labels to `X`. -/
theorem updateLabels_shared_pointer :
    bmarksShared.entry heapShared "B" = some (some { PostID := "A" }) ∧
    (bmarksShared.updateLabels heapShared apiMock 2).toOption.map
      (fun res => bmarksShared.entry res.2.1 "B") =
        some (some (some { PostID := "A", LabelIDs := some ["X"] })) ∧
    (bmarksShared.updateLabels heapShared apiMock 2).toOption.map
      (fun res => bmarksShared.entry res.2.1 "B") ≠
        some (bmarksShared.entry heapShared "B") := by
  refine ⟨by decide, by decide, by decide⟩

end BookmarksPlugin
